import Mathlib

/-!
Verification development for the quix QUIC core.

This file gives a shallow embedding, in Lean 4, of the parts of the quix
repository that the specification's claims are about:

* the loss-detection / congestion controller of `qcongestion/src/congestion.rs`
  (packet-number spaces, sent-packet records, lost-packet detection, the
  loss-detection timer and the PTO computation);
* the per-space transmitter of `qrecovery/src/space/tx.rs` (ACK-frame
  reception);
* the frame groups and group conversions, the frame parsers and the
  `FrameReader` iterator of `qbase/src/frame.rs`;
* the Retry long-header parser and writer of `qbase/src/packet/header/long.rs`;
* the send-side stream state machine of `qrecovery/src/send/outgoing.rs`;
* the send buffer of `qrecovery/src/sndbuf.rs`.

Modelling conventions: machine integers and instants become `Nat`
(times and durations in microseconds); Rust panics (`assert!`,
`unreachable!`, `unwrap`, `checked_sub(..).unwrap()`, `todo!`) become
`Option`/`Except` failures (`none`); byte buffers become `List Nat`.
Modules of the repository that are not part of the source snapshot
(the varint codec, the rtt module, the per-frame-kind parsers, the inner
sender states) are modelled from the specification text; those definitions
say so in their doc comments.
-/

namespace Quix

/-- Packet-number space (`Epoch` in `qcongestion/src/congestion.rs`). -/
inductive Epoch where
  | initial
  | handshake
  | data
deriving DecidableEq, Repr

/-- The index `e as u8` of an epoch, as used by `get_pto_time_and_space`. -/
def Epoch.idx : Epoch → Nat
  | .initial => 0
  | .handshake => 1
  | .data => 2

/-- `K_GRANULARITY` = 1ms, in microseconds. -/
def kGranularity : Nat := 1000

/-- `K_PACKET_THRESHOLD` = 3. -/
def kPacketThreshold : Nat := 3

/-- Modelled from the spec: the RTT estimator state of §3 and §4.5 (the
`rtt` module of the repository is not part of the source snapshot, only its
callers are).  Fields are in microseconds.  `hasFirstSample` records whether
a first RTT sample has been taken. -/
structure Rtt where
  latestRtt : Nat
  smoothedRtt : Nat
  rttvar : Nat
  minRtt : Nat
  hasFirstSample : Bool
deriving DecidableEq, Repr

/-- Modelled from the spec: initial RTT state before any sample, with the
RFC 9002 initial smoothed rtt of 333ms used by the spec's loss-detection
scenario (`loss_delay ≈ 333·9/8 ms when smoothed_rtt=333ms`). -/
def Rtt.init : Rtt :=
  { latestRtt := 0, smoothedRtt := 333000, rttvar := 166500, minRtt := 0,
    hasFirstSample := false }

/-- Distance of two naturals, standing for `|a - b|` on durations. -/
def natDist (a b : Nat) : Nat := max a b - min a b

/-- Modelled from the spec (§4.5): the per-ACK RTT update.  First sample sets
`smoothed = latest`, `rttvar = latest/2`, `min = latest`; later samples
subtract the ack delay (clamped at `min_rtt`) once the handshake is
confirmed and apply the 7/8 and 3/4 exponential averages. -/
def Rtt.update (r : Rtt) (latest ackDelay : Nat) (handshakeConfirmed : Bool) : Rtt :=
  if r.hasFirstSample = false then
    { latestRtt := latest, smoothedRtt := latest, rttvar := latest / 2,
      minRtt := latest, hasFirstSample := true }
  else
    let minRtt := min r.minRtt latest
    let adjusted :=
      if handshakeConfirmed then max minRtt (latest - ackDelay) else latest
    { latestRtt := latest,
      smoothedRtt := (7 * r.smoothedRtt + adjusted) / 8,
      rttvar := (3 * r.rttvar + natDist r.smoothedRtt adjusted) / 4,
      minRtt := minRtt,
      hasFirstSample := true }

/-- Modelled from the spec (§4.6): `loss_delay = max(9/8·max(smoothed_rtt,
latest_rtt), K_GRANULARITY)`. -/
def Rtt.lossDelay (r : Rtt) : Nat :=
  max (9 * max r.smoothedRtt r.latestRtt / 8) kGranularity

/-- The `Sent` record of `qcongestion/src/congestion.rs`, restricted to the
fields the loss-detection logic reads (`pkt_num`, `time_sent`, `size`,
`ack_eliciting`, `in_flight`).  The delivery-rate fields (`delivered`,
`delivered_time`, `first_sent_time`, `is_app_limited`, `tx_in_flight`,
`lost`, `has_data`, `time_acked`, `time_lost`) are only read by the
congestion algorithm, which is behind the `Algorithm` trait and outside the
claims. -/
structure Sent where
  pktNum : Nat
  timeSent : Nat
  size : Nat
  ackEliciting : Bool
  inFlight : Bool
deriving DecidableEq, Repr

/-- The `Acked` record built by `on_packet_acked` (fields the claims read). -/
structure Acked where
  pktNum : Nat
  timeSent : Nat
  size : Nat
  rttSample : Nat
deriving DecidableEq, Repr

/-- State of `CongestionController` (`qcongestion/src/congestion.rs`): the
fields read or written by `on_packet_sent`, `on_acked`, `on_packet_acked`,
`detect_and_remove_lost_packets`, `set_lost_detection_timer` and
`get_pto_time_and_space`.  The boxed congestion `Algorithm` and the two
observers only receive notifications and are not modelled. -/
structure CCState where
  rtt : Rtt
  lossDetectionTimer : Option Nat
  ptoCount : Nat
  maxAckDelay : Nat
  timeOfLastAckElicitingPacket : Epoch → Option Nat
  largestAckedPacket : Epoch → Option Nat
  lossTime : Epoch → Option Nat
  sentPackets : Epoch → List Sent
  antiAmplification : Bool
  handshakeConfirmed : Bool
  hasHandshakeKeys : Bool

/-- Pointwise update of an epoch-indexed field. -/
def updE {α : Type} (f : Epoch → α) (e : Epoch) (v : α) : Epoch → α :=
  fun x => if x = e then v else f x

/-- `CongestionController::new`: fresh state (note `max_ack_delay` is
initialized to 0 in the source, with a todo to read it from transport
parameters). -/
def newCC : CCState :=
  { rtt := Rtt.init,
    lossDetectionTimer := none,
    ptoCount := 0,
    maxAckDelay := 0,
    timeOfLastAckElicitingPacket := fun _ => none,
    largestAckedPacket := fun _ => none,
    lossTime := fun _ => none,
    sentPackets := fun _ => [],
    antiAmplification := false,
    handshakeConfirmed := false,
    hasHandshakeKeys := false }

/-- `CongestionController::get_loss_time_and_space`: scan Initial, then
Handshake and Data, keeping the strictly smallest recorded loss time. -/
def getLossTimeStep (st : CCState) (acc : Option Nat × Epoch) (e : Epoch) :
    Option Nat × Epoch :=
  match st.lossTime e, acc.1 with
  | some loss, none => (some loss, e)
  | some loss, some t => if loss < t then (some loss, e) else acc
  | none, _ => acc

/-- `CongestionController::get_loss_time_and_space`. -/
def getLossTimeAndSpace (st : CCState) : Option Nat × Epoch :=
  getLossTimeStep st
    (getLossTimeStep st (st.lossTime Epoch.initial, Epoch.initial) Epoch.handshake)
    Epoch.data

/-- `CongestionController::no_ack_eliciting_in_flight`: true when no space
records a time of last ack-eliciting packet. -/
def noAckElicitingInFlight (st : CCState) : Bool :=
  (st.timeOfLastAckElicitingPacket Epoch.initial).isNone &&
  (st.timeOfLastAckElicitingPacket Epoch.handshake).isNone &&
  (st.timeOfLastAckElicitingPacket Epoch.data).isNone

/-- `CongestionController::peer_completed_address_validation`. -/
def peerCompletedAddressValidation (st : CCState) : Bool :=
  st.hasHandshakeKeys || st.handshakeConfirmed

/-- One iteration body of the PTO loop of `get_pto_time_and_space`: if the
space records a time of last ack-eliciting packet, `t + duration` becomes
the candidate when strictly earlier than the current one. -/
def ptoStep (st : CCState) (duration : Nat) (acc : Option Nat × Nat) (e : Epoch) :
    Option Nat × Nat :=
  match st.timeOfLastAckElicitingPacket e with
  | none => acc
  | some t =>
    match acc.1 with
    | none => (some (t + duration), e.idx)
    | some cur => if t + duration < cur then (some (t + duration), e.idx) else acc

/-- The `for pn_space in [Initial, Handshake, Data]` loop of
`get_pto_time_and_space`, with the early return (the current accumulator)
at the Data space while the handshake is not confirmed, and the
`max_ack_delay * 2^pto_count` increase of the duration at the Data space. -/
def ptoLoop (st : CCState) (duration : Nat) (acc : Option Nat × Nat) :
    List Epoch → Option Nat × Nat
  | [] => acc
  | e :: rest =>
    if noAckElicitingInFlight st then ptoLoop st duration acc rest
    else
      match e with
      | Epoch.data =>
        if st.handshakeConfirmed then
          let d := duration + st.maxAckDelay * 2 ^ st.ptoCount
          ptoLoop st d (ptoStep st d acc Epoch.data) rest
        else acc
      | e => ptoLoop st duration (ptoStep st duration acc e) rest

/-- `CongestionController::get_pto_time_and_space`.  The `now` argument
stands for the `Instant::now()` the source reads in the
no-ack-eliciting-in-flight branch. -/
def getPtoTimeAndSpace (st : CCState) (now : Nat) : Option Nat × Nat :=
  let duration := st.rtt.smoothedRtt + max kGranularity (st.rtt.rttvar * 4)
  if noAckElicitingInFlight st then
    (some (now + duration), if st.hasHandshakeKeys then Epoch.handshake.idx else Epoch.initial.idx)
  else
    ptoLoop st duration (none, Epoch.initial.idx) [Epoch.initial, Epoch.handshake, Epoch.data]

/-- `CongestionController::set_lost_detection_timer`. -/
def setLostDetectionTimer (st : CCState) (now : Nat) : CCState :=
  match (getLossTimeAndSpace st).1 with
  | some t => { st with lossDetectionTimer := some t }
  | none =>
    if st.antiAmplification then { st with lossDetectionTimer := none }
    else if noAckElicitingInFlight st && peerCompletedAddressValidation st then
      { st with lossDetectionTimer := none }
    else { st with lossDetectionTimer := (getPtoTimeAndSpace st now).1 }

/-- The in-flight prelude of `CongestionController::on_packet_sent`: for
an in-flight packet, record the time of the last ack-eliciting packet when
ack-eliciting, notify the congestion algorithm (which only fills the
delivery-rate fields of `Sent`, not modelled), and rearm the
loss-detection timer. -/
def onPacketSentPre (st : CCState) (e : Epoch) (ackEliciting inFlight : Bool)
    (now : Nat) : CCState :=
  if inFlight then
    let st' :=
      if ackEliciting then
        { st with
            timeOfLastAckElicitingPacket :=
              updE st.timeOfLastAckElicitingPacket e (some now) }
      else st
    setLostDetectionTimer st' now
  else st

/-- `CongestionController::on_packet_sent`.  The final strict-increase
assertion on the sent deque becomes the `none` result. -/
def onPacketSent (st : CCState) (packetNumber : Nat) (e : Epoch)
    (ackEliciting inFlight : Bool) (sentBytes now : Nat) : Option CCState :=
  let sent : Sent :=
    { pktNum := packetNumber, timeSent := now, size := sentBytes,
      ackEliciting := ackEliciting, inFlight := inFlight }
  let st1 := onPacketSentPre st e ackEliciting inFlight now
  match (st1.sentPackets e).getLast? with
  | some lastp =>
    if lastp.pktNum < packetNumber then
      some { st1 with sentPackets := updE st1.sentPackets e (st1.sentPackets e ++ [sent]) }
    else none
  | none =>
    some { st1 with sentPackets := updE st1.sentPackets e (st1.sentPackets e ++ [sent]) }

/-- The scan over the sent deque inside
`detect_and_remove_lost_packets`: packets above `largest_acked` are kept;
packets at or below it are removed as lost when sent before
`lost_send_time` or when `largest_acked ≥ pn + K_PACKET_THRESHOLD`;
the remaining ones feed `time_sent + loss_delay` into the running minimum
that becomes the space's loss time.  Returns (lost, kept, loss time). -/
def detectLoop (la lostSendTime lossDelay : Nat) :
    List Sent → List Sent × List Sent × Option Nat
  | [] => ([], [], none)
  | p :: rest =>
    let r := detectLoop la lostSendTime lossDelay rest
    if la < p.pktNum then
      (r.1, p :: r.2.1, r.2.2)
    else if p.timeSent ≤ lostSendTime || la ≥ p.pktNum + kPacketThreshold then
      (p :: r.1, r.2.1, r.2.2)
    else
      (r.1, p :: r.2.1,
        some (match r.2.2 with
              | none => p.timeSent + lossDelay
              | some lt => min lt (p.timeSent + lossDelay)))

/-- `CongestionController::detect_and_remove_lost_packets`.  The
`assert!(largest_acked_packet.is_some())` and the
`now.checked_sub(loss_delay).unwrap()` become the `none` result. -/
def detectAndRemoveLostPackets (st : CCState) (e : Epoch) (now : Nat) :
    Option (List Sent × CCState) :=
  match st.largestAckedPacket e with
  | none => none
  | some la =>
    let lossDelay := st.rtt.lossDelay
    if lossDelay ≤ now then
      let r := detectLoop la (now - lossDelay) lossDelay (st.sentPackets e)
      some (r.1,
        { st with sentPackets := updE st.sentPackets e r.2.1,
                  lossTime := updE st.lossTime e r.2.2 })
    else none

/-- Binary search plus removal on the sent deque (the deque is kept sorted
by packet number, so `binary_search_by_key` finds the unique entry with the
given packet number when present): remove the first entry with this
packet number. -/
def removePkt (pn : Nat) : List Sent → Option (Sent × List Sent)
  | [] => none
  | p :: rest =>
    if p.pktNum = pn then some (p, rest)
    else (removePkt pn rest).map (fun r => (r.1, p :: r.2))

/-- `CongestionController::on_packet_acked`.  Outer `none` is a panic
inside loss detection; `some (none, st)` is the early `return None` when
the packet number is not in the deque. -/
def onPacketAcked (st : CCState) (packetNumber : Nat) (e : Epoch) (now : Nat) :
    Option (Option Acked × CCState) :=
  match removePkt packetNumber (st.sentPackets e) with
  | none => some (none, st)
  | some (p, rest) =>
    let st1 := { st with sentPackets := updE st.sentPackets e rest }
    let acked : Acked :=
      { pktNum := p.pktNum, timeSent := p.timeSent, size := p.size,
        rttSample := now - p.timeSent }
    match detectAndRemoveLostPackets st1 e now with
    | none => none
    | some (_lost, st2) =>
      let st3 :=
        if peerCompletedAddressValidation st2 then { st2 with ptoCount := 0 } else st2
      some (some acked, setLostDetectionTimer st3 now)

/-- Modelled from the spec (§4.2): the ACK frame carries `largest_acked`,
`ack_delay`, the first range and `range_count` gap/length pairs, plus
optional ECN counts (the `ack` submodule of `frame.rs` is not part of the
source snapshot). -/
structure AckFrame where
  largest : Nat
  delay : Nat
  firstRange : Nat
  ranges : List (Nat × Nat)
  ecn : Option (Nat × Nat × Nat)
deriving DecidableEq, Repr

/-- Modelled from the spec (§4.2): from a smallest-so-far packet number and
the remaining gap/length pairs, the further descending inclusive ranges of
an ACK frame. -/
def ackRangesFrom (smallest : Nat) : List (Nat × Nat) → List (Nat × Nat)
  | [] => []
  | (gap, len) :: rest =>
    let hi := smallest - gap - 2
    (hi - len, hi) :: ackRangesFrom (hi - len) rest

/-- Modelled from the spec (§4.2): `AckFrame::iter` — "Iteration yields a
descending sequence of inclusive PN ranges". -/
def AckFrame.iterRanges (a : AckFrame) : List (Nat × Nat) :=
  (a.largest - a.firstRange, a.largest) ::
    ackRangesFrom (a.largest - a.firstRange) a.ranges

/-- The packet numbers of one inclusive range, iterated ascending (the inner
`for pn in range` loop). -/
def rangePns (lo hi : Nat) : List Nat := List.range' lo (hi + 1 - lo)

/-- All packet numbers visited by the two nested loops of
`CongestionController::on_acked` and `Transmitter::recv_ack_frame`. -/
def ackPns (a : AckFrame) : List Nat :=
  (a.iterRanges.map (fun r => rangePns r.1 r.2)).flatten

/-- The body of the per-packet-number loop of
`CongestionController::on_acked`: on the largest acknowledged packet
number, assert monotonicity against the recorded largest (`none` on
failure), record it, acknowledge the packet, and feed the RTT sample
(`ack.as_ref().unwrap()` becomes `none` when `on_packet_acked` returned
no `Acked`); other packet numbers are simply acknowledged. -/
def onAckedLoop (e : Epoch) (largestAcked ackDelay now : Nat) :
    CCState → List Nat → Option CCState
  | st, [] => some st
  | st, pn :: rest =>
    if pn = largestAcked then
      let check : Option Unit :=
        match st.largestAckedPacket e with
        | some lap => if lap < pn then some () else none
        | none => some ()
      match check with
      | none => none
      | some _ =>
        let st1 := { st with largestAckedPacket := updE st.largestAckedPacket e (some pn) }
        match onPacketAcked st1 pn e now with
        | none => none
        | some (ackOpt, st2) =>
          match ackOpt with
          | none => none
          | some acked =>
            let st3 :=
              { st2 with rtt := st2.rtt.update acked.rttSample ackDelay st2.handshakeConfirmed }
            onAckedLoop e largestAcked ackDelay now st3 rest
    else
      match onPacketAcked st pn e now with
      | none => none
      | some (_, st2) => onAckedLoop e largestAcked ackDelay now st2 rest

/-- `CongestionController::on_acked`.  The `now` argument stands for the
`Instant::now()` the source reads at entry. -/
def onAcked (st : CCState) (e : Epoch) (ack : AckFrame) (now : Nat) : Option CCState :=
  onAckedLoop e ack.largest ack.delay now st (ackPns ack)

/-!
The per-space transmitter of `qrecovery/src/space/tx.rs`.
-/

/-- Space identifier (`qbase::SpaceId`). -/
inductive SpaceId where
  | initial
  | handshake
  | zeroRtt
  | oneRtt
deriving DecidableEq, Repr

/-- An in-flight packet record of the transmitter (`Packet` in
`qrecovery/src/space/tx.rs`), restricted to the fields
`recv_ack_frame` reads.  The `payload` records are only forwarded to the
crypto stream, the data streams and the ack observer
(`confirm_packet_rcvd`), none of which lives in the transmitter state. -/
structure TxPacket where
  sendTime : Nat
  sentBytes : Nat
  isAckEliciting : Bool
deriving DecidableEq, Repr

/-- State of `Transmitter` (`qrecovery/src/space/tx.rs`): the in-flight
packet window (`IndexDeque`, an offset plus a queue, entry `none` meaning
already acknowledged) and the recorded largest packet id acknowledged by
the peer. -/
structure TxState where
  spaceId : SpaceId
  inflightOffset : Nat
  inflight : List (Option TxPacket)
  timeOfLastSentAckElicitingPacket : Option Nat
  largestAckedPktid : Option Nat
deriving DecidableEq, Repr

/-- `IndexDeque::get_mut(pktid).and_then(|record| record.take())` plus the
write-back: look up the packet id, and when it still holds a packet,
take it out (leaving `none`). -/
def txTake (offset : Nat) (q : List (Option TxPacket)) (pktid : Nat) :
    Option TxPacket × List (Option TxPacket) :=
  if h : offset ≤ pktid ∧ pktid - offset < q.length then
    match q.get ⟨pktid - offset, h.2⟩ with
    | some p => (some p, q.set (pktid - offset) none)
    | none => (none, q)
  else (none, q)

/-- The nested range/packet-number loop of `Transmitter::recv_ack_frame`,
accumulating (queue, newly-acked?, includes-ack-eliciting?, rtt sample). -/
def recvAckLoop (offset largestAcked now : Nat) :
    List (Option TxPacket) → Bool → Bool → Option Nat → List Nat →
      List (Option TxPacket) × Bool × Bool × Option Nat
  | q, newlyAcked, includesAckEliciting, rttSample, [] =>
    (q, newlyAcked, includesAckEliciting, rttSample)
  | q, newlyAcked, includesAckEliciting, rttSample, pn :: rest =>
    match txTake offset q pn with
    | (some p, q') =>
      let includesAckEliciting' := includesAckEliciting || p.isAckEliciting
      let rttSample' := if pn = largestAcked then some (now - p.sendTime) else rttSample
      recvAckLoop offset largestAcked now q' true includesAckEliciting' rttSample' rest
    | (none, q') =>
      recvAckLoop offset largestAcked now q' newlyAcked includesAckEliciting rttSample rest

/-- `Transmitter::recv_ack_frame`.  An ACK whose `largest` is below the
recorded `largest_acked_pktid` returns early with nothing changed.  The
`now` argument stands for `Instant::now()` (used through
`send_time.elapsed()`).  The `todo!` on present ECN counts (reached only
when something was newly acknowledged) becomes `none`. -/
def recvAckFrame (st : TxState) (ack : AckFrame) (rtt : Rtt) (now : Nat) :
    Option (TxState × Rtt) :=
  let largestAcked := ack.largest
  let isOld : Bool :=
    match st.largestAckedPktid with
    | some v => decide (largestAcked < v)
    | none => false
  if isOld then
    some (st, rtt)
  else
    let st1 := { st with largestAckedPktid := some largestAcked }
    let ecnInAck := ack.ecn
    let ackDelay := ack.delay
    let r := recvAckLoop st1.inflightOffset largestAcked now st1.inflight
      false false none (ackPns ack)
    let st2 := { st1 with inflight := r.1 }
    if r.2.1 = false then some (st2, rtt)
    else
      let rtt' :=
        if r.2.2.1 then
          match r.2.2.2 with
          | some latest => rtt.update latest ackDelay (st2.spaceId = SpaceId.oneRtt)
          | none => rtt
        else rtt
      match ecnInAck with
      | some _ => none
      | none => some (st2, rtt')

/-!
The Retry long header of `qbase/src/packet/header/long.rs`: the
version-specific part (token plus 16-byte integrity tag), its parser
`be_retry` and its writer `Write<Retry>::put_specific`.
-/

/-- The `Retry` header-specific data (token bytes and 16-byte integrity
tag). -/
structure RetrySpecific where
  token : List Nat
  integrity : List Nat
deriving DecidableEq, Repr

/-- `be_retry`: with fewer than 16 bytes the input is incomplete (`none`);
otherwise `take(input.len() - 16)` yields the token and leaves the last 16
bytes as the integrity tag, consuming the whole input. -/
def beRetry (input : List Nat) : Option (List Nat × RetrySpecific) :=
  if input.length < 16 then none
  else
    let tokenLength := input.length - 16
    some ([], { token := input.take tokenLength, integrity := input.drop tokenLength })

/-- `Write<Retry>::put_specific`: the source writes the integrity tag
first, then the token. -/
def putRetry (r : RetrySpecific) : List Nat :=
  r.integrity ++ r.token

/-!
The send-side stream state machine of `qrecovery/src/send/outgoing.rs`.
The inner sender states (`sender.rs`) are not part of the source snapshot;
modelled from the spec, each live state carries the stream's send buffer.
-/

/-- Byte-range colors of the send buffer (`Color` in
`qrecovery/src/sndbuf.rs`; the source spells in-flight `Fligting` and
acked `Recved`). -/
inductive Color where
  | pending
  | flighting
  | recved
  | lost
deriving DecidableEq, Repr

/-- `SendBuf` (`qrecovery/src/sndbuf.rs`): the written bytes plus the
color map, a sorted association list from byte-offset upper bound to the
color of the run reaching up to it (the skiplist `state`). -/
structure SendBuf where
  offset : Nat
  maxDataLen : Nat
  data : List Nat
  state : List (Nat × Color)
deriving DecidableEq, Repr

/-- `SendBuf::with_capacity`. -/
def SendBuf.withCapacity (n : Nat) : SendBuf :=
  { offset := 0, maxDataLen := n, data := [], state := [] }

/-- `SendBuf::wrote`: the last key of the color map, or the base offset. -/
def SendBuf.wrote (b : SendBuf) : Nat :=
  match b.state.getLast? with
  | none => b.offset
  | some e => e.1

/-- The backward Pending merge of `SendBuf::write`: starting just before
the newly inserted entry, remove consecutive Pending entries. -/
def dropTrailingPending (l : List (Nat × Color)) : List (Nat × Color) :=
  (l.reverse.dropWhile (fun p => p.2 == Color.pending)).reverse

/-- `SendBuf::write`: append at most `max_data_len - wrote` bytes as a
Pending run (merging with a trailing Pending run), returning the number of
bytes taken.  The `assert!(!data.is_empty())` becomes `none`. -/
def SendBuf.write (b : SendBuf) (bytes : List Nat) : Option (Nat × SendBuf) :=
  if bytes = [] then none
  else
    let wrote := b.wrote
    let writeable := b.maxDataLen - wrote
    let n := min writeable bytes.length
    if 0 < n then
      some (n,
        { b with data := b.data ++ bytes.take n,
                 state := dropTrailingPending b.state ++ [(wrote + n, Color.pending)] })
    else some (n, b)

/-- The backward Recved merge of `SendBuf::ack`: remove consecutive Recved
entries from the back. -/
def dropTrailingRecvd (l : List (Nat × Color)) : List (Nat × Color) :=
  (l.reverse.dropWhile (fun p => p.2 == Color.recved)).reverse

/-- `SendBuf::ack(range)`: remove the Flighting/Lost/Recved entries whose
key lies in the range (a Pending key there hits
`unreachable!("must not be acked before sending")`, modelled `none`);
re-insert the range's start with the color of the run it split (the first
removed entry's color, or the color found at `lower_bound(range.end)`,
whose absence is the `unwrap` panic, modelled `none`); merge backward over
Recved from there; insert the range's end as Recved and merge forward over
Recved. -/
def SendBuf.ack (b : SendBuf) (s e : Nat) : Option SendBuf :=
  let inRange := b.state.filter (fun (p : Nat × Color) => decide (s ≤ p.1) && decide (p.1 < e))
  if inRange.any (fun (p : Nat × Color) => p.2 == Color.pending) then none
  else
    let base := b.state.filter (fun (p : Nat × Color) => !(decide (s ≤ p.1) && decide (p.1 < e)))
    let preColor := inRange.head?.map (fun (p : Nat × Color) => p.2)
    let color :=
      match preColor with
      | some c => some c
      | none =>
        ((base.filter (fun (p : Nat × Color) => decide (e ≤ p.1))).head?).map
          (fun (p : Nat × Color) => p.2)
    match color with
    | none => none
    | some c =>
      let before := base.filter (fun (p : Nat × Color) => decide (p.1 < s))
      let after := base.filter (fun (p : Nat × Color) => decide (s < p.1))
      let base3 :=
        if c == Color.recved then dropTrailingRecvd before ++ after
        else before ++ [(s, c)] ++ after
      let before2 := base3.filter (fun (p : Nat × Color) => decide (p.1 < e))
      let after2 := base3.filter (fun (p : Nat × Color) => decide (e < p.1))
      let rrun := after2.takeWhile (fun (p : Nat × Color) => p.2 == Color.recved)
      let rest := after2.dropWhile (fun (p : Nat × Color) => p.2 == Color.recved)
      let merged :=
        match rrun.getLast? with
        | none => [(e, Color.recved)]
        | some lastE => [lastE]
      some { b with state := before2 ++ merged ++ rest }

/-- One user-visible operation on a send buffer, as in the claim: a
`write` or an `ack`. -/
inductive SbOp where
  | write (bytes : List Nat)
  | ack (s e : Nat)
deriving DecidableEq, Repr

/-- Run one operation (dropping `write`'s byte-count result). -/
def runSbOp (b : SendBuf) : SbOp → Option SendBuf
  | SbOp.write bytes => (b.write bytes).map (fun r => r.2)
  | SbOp.ack s e => b.ack s e

/-- Run a sequence of operations. -/
def runSbOps (b : SendBuf) : List SbOp → Option SendBuf
  | [] => some b
  | op :: rest =>
    match runSbOp b op with
    | none => none
    | some b' => runSbOps b' rest

/-- The claim's per-operation preconditions: writes are nonempty, acks
cover a nonempty range. -/
def SbOp.ok : SbOp → Prop
  | SbOp.write bytes => bytes ≠ []
  | SbOp.ack s e => s < e

/-- The claim's invariant on the color map: keys strictly increase, and no
two consecutive entries carry the same color (each maximal same-colored
run is one entry). -/
def ColorMapInv (l : List (Nat × Color)) : Prop :=
  List.Chain' (fun a b => a.1 < b.1) l ∧ List.Chain' (fun a b => a.2 ≠ b.2) l

/-- The sender-side stream state machine (`Sender` in
`qrecovery/src/send/sender.rs`, not part of the source snapshot; modelled
from the spec, with each live state carrying the send buffer). -/
inductive Sender where
  | ready (buf : SendBuf)
  | sending (buf : SendBuf)
  | dataSent (buf : SendBuf)
  | dataRecvd
  | resetSent
  | resetRecvd
deriving DecidableEq, Repr

/-- `Outgoing::stop` (`qrecovery/src/send/outgoing.rs`): Sending and
DataSent move to ResetSent (the inner sender's buffered data is dropped
with the inner state); DataRecvd, ResetSent and ResetRecvd are put back
unchanged; Ready hits `unreachable!("never send data before recv data")`,
modelled `none`. -/
def outgoingStop : Sender → Option Sender
  | Sender.ready _ => none
  | Sender.dataSent _ => some Sender.resetSent
  | Sender.sending _ => some Sender.resetSent
  | Sender.dataRecvd => some Sender.dataRecvd
  | Sender.resetSent => some Sender.resetSent
  | Sender.resetRecvd => some Sender.resetRecvd

/-- `Outgoing::confirm_reset`: ResetSent and ResetRecvd move to (or stay
at) ResetRecvd; every other state hits `unreachable!`, modelled `none`. -/
def outgoingConfirmReset : Sender → Option Sender
  | Sender.resetSent => some Sender.resetRecvd
  | Sender.resetRecvd => some Sender.resetRecvd
  | _ => none

/-!
The frame codec of `qbase/src/frame.rs`: frame kinds, the frame groups and
their conversions, the per-kind parsers (the per-kind submodules are not
part of the source snapshot and are modelled from the spec), the dispatch
`complete_frame`, `ext::be_frame` and the `FrameReader` iterator.
-/

/-- Result of a streaming parser over a byte list, mirroring nom's
`IResult`: success with the value and the remaining input, `needed n` for
`Err::Incomplete`, `failed` for `Err::Error` (a value constraint
violation). -/
inductive PRes (α : Type) where
  | ok (val : α) (rest : List Nat)
  | needed (n : Nat)
  | failed
deriving DecidableEq, Repr

/-- Sequencing of parser results (success feeds the value and the rest to
the continuation, incompleteness and failure propagate). -/
def PRes.andThen {α β : Type} (r : PRes α) (f : α → List Nat → PRes β) : PRes β :=
  match r with
  | PRes.ok a rest => f a rest
  | PRes.needed n => PRes.needed n
  | PRes.failed => PRes.failed

/-- Big-endian accumulation of the value bytes of a varint. -/
def beBytesVal (acc : Nat) (bs : List Nat) : Nat :=
  bs.foldl (fun a b => a * 256 + b) acc

/-- Modelled from the spec (§4.1, L0): the variable-length integer parser
(the `varint` module is not part of the source snapshot).  The top two
bits of the first byte give the length class (1/2/4/8 bytes); fewer
remaining bytes than the class implies is an incomplete input. -/
def beVarint (input : List Nat) : PRes Nat :=
  match input with
  | [] => PRes.needed 1
  | b0 :: rest =>
    let need := 2 ^ (b0 / 64) - 1
    if rest.length < need then PRes.needed (need - rest.length)
    else PRes.ok (beBytesVal (b0 % 64) (rest.take need)) (rest.drop need)

/-- Take exactly `n` bytes (nom's streaming `take`). -/
def takeBytes (n : Nat) (input : List Nat) : PRes (List Nat) :=
  if input.length < n then PRes.needed (n - input.length)
  else PRes.ok (input.take n) (input.drop n)

/-- PING frame (no fields). -/
structure PingFrame where
deriving DecidableEq, Repr

/-- HANDSHAKE_DONE frame (no fields). -/
structure HandshakeDoneFrame where
deriving DecidableEq, Repr

/-- NEW_TOKEN frame: a length-prefixed token. -/
structure NewTokenFrame where
  token : List Nat
deriving DecidableEq, Repr

/-- MAX_DATA frame. -/
structure MaxDataFrame where
  maxData : Nat
deriving DecidableEq, Repr

/-- DATA_BLOCKED frame. -/
structure DataBlockedFrame where
  limit : Nat
deriving DecidableEq, Repr

/-- NEW_CONNECTION_ID frame: sequence, retire-prior-to, length-prefixed
connection id, 16-byte stateless reset token. -/
structure NewConnectionIdFrame where
  sequence : Nat
  retirePriorTo : Nat
  id : List Nat
  resetToken : List Nat
deriving DecidableEq, Repr

/-- RETIRE_CONNECTION_ID frame. -/
structure RetireConnectionIdFrame where
  sequence : Nat
deriving DecidableEq, Repr

/-- PATH_CHALLENGE frame: 8 bytes of data. -/
structure PathChallengeFrame where
  payload : List Nat
deriving DecidableEq, Repr

/-- PATH_RESPONSE frame: 8 bytes of data. -/
structure PathResponseFrame where
  payload : List Nat
deriving DecidableEq, Repr

/-- RESET_STREAM frame: stream id, application error code, final size. -/
structure ResetStreamFrame where
  streamId : Nat
  errorCode : Nat
  finalSize : Nat
deriving DecidableEq, Repr

/-- STOP_SENDING frame: stream id, application error code. -/
structure StopSendingFrame where
  streamId : Nat
  errorCode : Nat
deriving DecidableEq, Repr

/-- MAX_STREAM_DATA frame. -/
structure MaxStreamDataFrame where
  streamId : Nat
  maxStreamData : Nat
deriving DecidableEq, Repr

/-- MAX_STREAMS frame (`dir` is the low type bit: 0 bidirectional, 1
unidirectional). -/
structure MaxStreamsFrame where
  dir : Nat
  maxStreams : Nat
deriving DecidableEq, Repr

/-- STREAM_DATA_BLOCKED frame. -/
structure StreamDataBlockedFrame where
  streamId : Nat
  maxStreamData : Nat
deriving DecidableEq, Repr

/-- STREAMS_BLOCKED frame (`dir` as in MAX_STREAMS). -/
structure StreamsBlockedFrame where
  dir : Nat
  maxStreams : Nat
deriving DecidableEq, Repr

/-- CONNECTION_CLOSE frame; `layer` is the low type bit (0 transport, 1
application), the transport variant carries the offending frame type. -/
structure ConnectionCloseFrame where
  layer : Nat
  errorCode : Nat
  frameTypeField : Option Nat
  reason : List Nat
deriving DecidableEq, Repr

/-- CRYPTO frame descriptor (offset and length; the data slice is carried
separately, as in the source). -/
structure CryptoFrame where
  offset : Nat
  length : Nat
deriving DecidableEq, Repr

/-- STREAM frame descriptor (`flag` is the low three type bits
OFF=0x04, LEN=0x02, FIN=0x01; without LEN the length is the remainder of
the buffer). -/
structure StreamFrame where
  streamId : Nat
  offset : Nat
  length : Nat
  flag : Nat
deriving DecidableEq, Repr

/-- `FrameType` of `qbase/src/frame.rs` (flag bits carried as payload). -/
inductive FrameType where
  | padding
  | ping
  | ack (ecn : Nat)
  | resetStream
  | stopSending
  | crypto
  | newToken
  | stream (flag : Nat)
  | maxData
  | maxStreamData
  | maxStreams (dir : Nat)
  | dataBlocked
  | streamDataBlocked
  | streamsBlocked (dir : Nat)
  | newConnectionId
  | retireConnectionId
  | pathChallenge
  | pathResponse
  | connectionClose (layer : Nat)
  | handshakeDone
deriving DecidableEq, Repr

/-- `TryFrom<VarInt> for FrameType` of `qbase/src/frame.rs`. -/
def frameTypeFromVarint (v : Nat) : Option FrameType :=
  if v = 0x00 then some FrameType.padding
  else if v = 0x01 then some FrameType.ping
  else if v = 0x02 ∨ v = 0x03 then some (FrameType.ack (v % 2))
  else if v = 0x04 then some FrameType.resetStream
  else if v = 0x05 then some FrameType.stopSending
  else if v = 0x06 then some FrameType.crypto
  else if v = 0x07 then some FrameType.newToken
  else if 0x08 ≤ v ∧ v ≤ 0x0f then some (FrameType.stream (v % 8))
  else if v = 0x10 then some FrameType.maxData
  else if v = 0x11 then some FrameType.maxStreamData
  else if v = 0x12 ∨ v = 0x13 then some (FrameType.maxStreams (v % 2))
  else if v = 0x14 then some FrameType.dataBlocked
  else if v = 0x15 then some FrameType.streamDataBlocked
  else if v = 0x16 ∨ v = 0x17 then some (FrameType.streamsBlocked (v % 2))
  else if v = 0x18 then some FrameType.newConnectionId
  else if v = 0x19 then some FrameType.retireConnectionId
  else if v = 0x1a then some FrameType.pathChallenge
  else if v = 0x1b then some FrameType.pathResponse
  else if v = 0x1c ∨ v = 0x1d then some (FrameType.connectionClose (v % 2))
  else if v = 0x1e then some FrameType.handshakeDone
  else none

/-- `frame::error::Error` of `qbase/src/frame.rs` (the detail strings of
the incomplete/parse variants are dropped; the static context strings of
`WrongFrame`/`WrongData` are kept, the claims name them). -/
inductive FrameError where
  | incompleteType
  | invalidType (v : Nat)
  | incompleteFrame (ft : FrameType)
  | parseError (ft : FrameType)
  | wrongFrame (ft : FrameType) (context : String)
  | wrongData (ft : FrameType) (context : String)
  | noFrames
deriving DecidableEq, Repr

/-- `StreamInfoFrame` of `qbase/src/frame.rs`: the stream-control frame
group. -/
inductive StreamInfoFrame where
  | resetStream (f : ResetStreamFrame)
  | stopSending (f : StopSendingFrame)
  | maxStreamData (f : MaxStreamDataFrame)
  | maxStreams (f : MaxStreamsFrame)
  | streamDataBlocked (f : StreamDataBlockedFrame)
  | streamsBlocked (f : StreamsBlockedFrame)
deriving DecidableEq, Repr

/-- `InfoFrame` of `qbase/src/frame.rs`: the 1-RTT info-frame group
(`OneRttFrame` is an alias of it). -/
inductive InfoFrame where
  | ping (f : PingFrame)
  | newToken (f : NewTokenFrame)
  | maxData (f : MaxDataFrame)
  | dataBlocked (f : DataBlockedFrame)
  | newConnectionId (f : NewConnectionIdFrame)
  | retireConnectionId (f : RetireConnectionIdFrame)
  | pathChallenge (f : PathChallengeFrame)
  | pathResponse (f : PathResponseFrame)
  | handshakeDone (f : HandshakeDoneFrame)
  | stream (f : StreamInfoFrame)
deriving DecidableEq, Repr

/-- `ZeroRttFrame` of `qbase/src/frame.rs`: the 0-RTT info-frame group. -/
inductive ZeroRttFrame where
  | ping (f : PingFrame)
  | maxData (f : MaxDataFrame)
  | dataBlocked (f : DataBlockedFrame)
  | newConnectionId (f : NewConnectionIdFrame)
  | retireConnectionId (f : RetireConnectionIdFrame)
  | pathChallenge (f : PathChallengeFrame)
  | stream (f : StreamInfoFrame)
deriving DecidableEq, Repr

/-- `DataFrame` of `qbase/src/frame.rs`. -/
inductive DataFrame where
  | crypto (f : CryptoFrame)
  | stream (f : StreamFrame)
deriving DecidableEq, Repr

/-- `Frame` of `qbase/src/frame.rs` (a data frame carries its zero-copy
payload slice). -/
inductive Frame where
  | padding
  | ack (f : AckFrame)
  | close (f : ConnectionCloseFrame)
  | info (f : InfoFrame)
  | data (f : DataFrame) (payload : List Nat)
deriving DecidableEq, Repr

/-- `BeFrame::frame_type` on the stream-control group. -/
def streamInfoFrameType : StreamInfoFrame → FrameType
  | StreamInfoFrame.resetStream _ => FrameType.resetStream
  | StreamInfoFrame.stopSending _ => FrameType.stopSending
  | StreamInfoFrame.maxStreamData _ => FrameType.maxStreamData
  | StreamInfoFrame.maxStreams f => FrameType.maxStreams f.dir
  | StreamInfoFrame.streamDataBlocked _ => FrameType.streamDataBlocked
  | StreamInfoFrame.streamsBlocked f => FrameType.streamsBlocked f.dir

/-- `BeFrame::frame_type` on the 1-RTT info-frame group. -/
def infoFrameType : InfoFrame → FrameType
  | InfoFrame.ping _ => FrameType.ping
  | InfoFrame.newToken _ => FrameType.newToken
  | InfoFrame.maxData _ => FrameType.maxData
  | InfoFrame.dataBlocked _ => FrameType.dataBlocked
  | InfoFrame.newConnectionId _ => FrameType.newConnectionId
  | InfoFrame.retireConnectionId _ => FrameType.retireConnectionId
  | InfoFrame.pathChallenge _ => FrameType.pathChallenge
  | InfoFrame.pathResponse _ => FrameType.pathResponse
  | InfoFrame.handshakeDone _ => FrameType.handshakeDone
  | InfoFrame.stream f => streamInfoFrameType f

/-- `TryFrom<InfoFrame> for ZeroRttFrame` of `qbase/src/frame.rs`
(lines 213–228): Ping, MaxData, DataBlocked, NewConnectionId,
RetireConnectionId, PathChallenge and the stream-control group convert;
everything else is `WrongFrame(frame_type, "Zero rtt data")`. -/
def zeroRttTryFromInfo : InfoFrame → Except FrameError ZeroRttFrame
  | InfoFrame.ping _ => Except.ok (ZeroRttFrame.ping {})
  | InfoFrame.maxData f => Except.ok (ZeroRttFrame.maxData f)
  | InfoFrame.dataBlocked f => Except.ok (ZeroRttFrame.dataBlocked f)
  | InfoFrame.newConnectionId f => Except.ok (ZeroRttFrame.newConnectionId f)
  | InfoFrame.retireConnectionId f => Except.ok (ZeroRttFrame.retireConnectionId f)
  | InfoFrame.pathChallenge f => Except.ok (ZeroRttFrame.pathChallenge f)
  | InfoFrame.stream f => Except.ok (ZeroRttFrame.stream f)
  | other => Except.error (FrameError.wrongFrame (infoFrameType other) "Zero rtt data")

/-- `From<ZeroRttFrame> for InfoFrame` of `qbase/src/frame.rs`
(lines 230–242). -/
def infoFromZeroRtt : ZeroRttFrame → InfoFrame
  | ZeroRttFrame.ping _ => InfoFrame.ping {}
  | ZeroRttFrame.maxData f => InfoFrame.maxData f
  | ZeroRttFrame.dataBlocked f => InfoFrame.dataBlocked f
  | ZeroRttFrame.newConnectionId f => InfoFrame.newConnectionId f
  | ZeroRttFrame.retireConnectionId f => InfoFrame.retireConnectionId f
  | ZeroRttFrame.pathChallenge f => InfoFrame.pathChallenge f
  | ZeroRttFrame.stream f => InfoFrame.stream f

/-- The set of info frames the spec admits in a 0-RTT packet, as listed by
the claim: Ping, MaxData, DataBlocked, NewConnectionId, RetireConnectionId,
PathChallenge and the stream-control kinds (ResetStream, StopSending,
MaxStreamData, MaxStreams, StreamDataBlocked, StreamsBlocked). -/
def zeroRttAdmissible : InfoFrame → Bool
  | InfoFrame.ping _ => true
  | InfoFrame.maxData _ => true
  | InfoFrame.dataBlocked _ => true
  | InfoFrame.newConnectionId _ => true
  | InfoFrame.retireConnectionId _ => true
  | InfoFrame.pathChallenge _ => true
  | InfoFrame.stream _ => true
  | InfoFrame.newToken _ => false
  | InfoFrame.pathResponse _ => false
  | InfoFrame.handshakeDone _ => false

/-- Modelled from the spec (§6): RESET_STREAM body — stream id, error
code, final size (the `reset_stream` submodule is not in the snapshot). -/
def beResetStreamFrame (input : List Nat) : PRes ResetStreamFrame :=
  (beVarint input).andThen fun sid r1 =>
    (beVarint r1).andThen fun ec r2 =>
      (beVarint r2).andThen fun fin r3 =>
        PRes.ok { streamId := sid, errorCode := ec, finalSize := fin } r3

/-- Modelled from the spec (§6): STOP_SENDING body — stream id, error
code. -/
def beStopSendingFrame (input : List Nat) : PRes StopSendingFrame :=
  (beVarint input).andThen fun sid r1 =>
    (beVarint r1).andThen fun ec r2 =>
      PRes.ok { streamId := sid, errorCode := ec } r2

/-- Modelled from the spec (§6): CRYPTO descriptor — offset, length (the
data slice is handled by the dispatcher). -/
def beCryptoFrame (input : List Nat) : PRes CryptoFrame :=
  (beVarint input).andThen fun off r1 =>
    (beVarint r1).andThen fun len r2 =>
      PRes.ok { offset := off, length := len } r2

/-- Modelled from the spec (§6): NEW_TOKEN body — length-prefixed token. -/
def beNewTokenFrame (input : List Nat) : PRes NewTokenFrame :=
  (beVarint input).andThen fun len r1 =>
    (takeBytes len r1).andThen fun tok r2 =>
      PRes.ok { token := tok } r2

/-- Modelled from the spec (§6): MAX_DATA body — one varint. -/
def beMaxDataFrame (input : List Nat) : PRes MaxDataFrame :=
  (beVarint input).andThen fun v r1 => PRes.ok { maxData := v } r1

/-- Modelled from the spec (§6): MAX_STREAM_DATA body — stream id,
limit. -/
def beMaxStreamDataFrame (input : List Nat) : PRes MaxStreamDataFrame :=
  (beVarint input).andThen fun sid r1 =>
    (beVarint r1).andThen fun v r2 =>
      PRes.ok { streamId := sid, maxStreamData := v } r2

/-- Modelled from the spec (§6, §7): MAX_STREAMS body — one varint,
rejected above 2^60 (the `ParseError` example of the spec's error
table). -/
def maxStreamsFrameWithDir (dir : Nat) (input : List Nat) : PRes MaxStreamsFrame :=
  (beVarint input).andThen fun v r1 =>
    if v ≤ 2 ^ 60 then PRes.ok { dir := dir, maxStreams := v } r1
    else PRes.failed

/-- Modelled from the spec (§6): DATA_BLOCKED body — one varint. -/
def beDataBlockedFrame (input : List Nat) : PRes DataBlockedFrame :=
  (beVarint input).andThen fun v r1 => PRes.ok { limit := v } r1

/-- Modelled from the spec (§6): STREAM_DATA_BLOCKED body — stream id,
limit. -/
def beStreamDataBlockedFrame (input : List Nat) : PRes StreamDataBlockedFrame :=
  (beVarint input).andThen fun sid r1 =>
    (beVarint r1).andThen fun v r2 =>
      PRes.ok { streamId := sid, maxStreamData := v } r2

/-- Modelled from the spec (§6): STREAMS_BLOCKED body — one varint. -/
def streamsBlockedFrameWithDir (dir : Nat) (input : List Nat) : PRes StreamsBlockedFrame :=
  (beVarint input).andThen fun v r1 =>
    PRes.ok { dir := dir, maxStreams := v } r1

/-- Modelled from the spec (§6): NEW_CONNECTION_ID body — sequence,
retire-prior-to, one length byte (a connection id is 1–20 bytes, the
`Verify` failure the source's comments mention), the connection id, a
16-byte stateless reset token. -/
def beNewConnectionIdFrame (input : List Nat) : PRes NewConnectionIdFrame :=
  (beVarint input).andThen fun seq r1 =>
    (beVarint r1).andThen fun retire r2 =>
      (takeBytes 1 r2).andThen fun lenB r3 =>
        let len := beBytesVal 0 lenB
        if 1 ≤ len ∧ len ≤ 20 then
          (takeBytes len r3).andThen fun cid r4 =>
            (takeBytes 16 r4).andThen fun tok r5 =>
              PRes.ok { sequence := seq, retirePriorTo := retire, id := cid, resetToken := tok } r5
        else PRes.failed

/-- Modelled from the spec (§6): RETIRE_CONNECTION_ID body — one
varint. -/
def beRetireConnectionIdFrame (input : List Nat) : PRes RetireConnectionIdFrame :=
  (beVarint input).andThen fun v r1 => PRes.ok { sequence := v } r1

/-- Modelled from the spec (§6): PATH_CHALLENGE body — 8 bytes. -/
def bePathChallengeFrame (input : List Nat) : PRes PathChallengeFrame :=
  (takeBytes 8 input).andThen fun d r1 => PRes.ok { payload := d } r1

/-- Modelled from the spec (§6): PATH_RESPONSE body — 8 bytes. -/
def bePathResponseFrame (input : List Nat) : PRes PathResponseFrame :=
  (takeBytes 8 input).andThen fun d r1 => PRes.ok { payload := d } r1

/-- Modelled from the spec (§6): CONNECTION_CLOSE body — error code, the
offending frame type for the transport variant (layer bit 0), a
length-prefixed reason. -/
def connectionCloseFrameAtLayer (layer : Nat) (input : List Nat) : PRes ConnectionCloseFrame :=
  (beVarint input).andThen fun ec r1 =>
    (if layer = 0 then
        (beVarint r1).andThen fun ft r2 => PRes.ok (some ft) r2
      else PRes.ok none r1).andThen fun ftOpt r2 =>
      (beVarint r2).andThen fun rlen r3 =>
        (takeBytes rlen r3).andThen fun reason r4 =>
          PRes.ok { layer := layer, errorCode := ec, frameTypeField := ftOpt, reason := reason } r4

/-- Modelled from the spec (§4.2): the `range_count` gap/length pairs of an
ACK frame. -/
def ackPairsParse (n : Nat) (input : List Nat) : PRes (List (Nat × Nat)) :=
  match n with
  | 0 => PRes.ok [] input
  | n + 1 =>
    (beVarint input).andThen fun gap r1 =>
      (beVarint r1).andThen fun len r2 =>
        (ackPairsParse n r2).andThen fun rest r3 =>
          PRes.ok ((gap, len) :: rest) r3

/-- Modelled from the spec (§4.2, §6): ACK body — largest, delay, range
count, first range, the gap/length pairs, and with the ECN type bit three
further counts. -/
def ackFrameWithFlag (ecnFlag : Nat) (input : List Nat) : PRes AckFrame :=
  (beVarint input).andThen fun largest r1 =>
    (beVarint r1).andThen fun delay r2 =>
      (beVarint r2).andThen fun count r3 =>
        (beVarint r3).andThen fun first r4 =>
          (ackPairsParse count r4).andThen fun pairs r5 =>
            if ecnFlag = 1 then
              (beVarint r5).andThen fun e0 r6 =>
                (beVarint r6).andThen fun e1 r7 =>
                  (beVarint r7).andThen fun e2 r8 =>
                    PRes.ok { largest := largest, delay := delay, firstRange := first,
                              ranges := pairs, ecn := some (e0, e1, e2) } r8
            else
              PRes.ok { largest := largest, delay := delay, firstRange := first,
                        ranges := pairs, ecn := none } r5

/-- Modelled from the spec (§6): STREAM descriptor — stream id, an offset
when the OFF bit (0x04) is set, a length when the LEN bit (0x02) is set;
without the LEN bit the frame extends to the end of the buffer. -/
def streamFrameWithFlag (flag : Nat) (input : List Nat) : PRes StreamFrame :=
  (beVarint input).andThen fun sid r1 =>
    (if flag.testBit 2 then beVarint r1 else PRes.ok 0 r1).andThen fun off r2 =>
      if flag.testBit 1 then
        (beVarint r2).andThen fun len r3 =>
          PRes.ok { streamId := sid, offset := off, length := len, flag := flag } r3
      else
        PRes.ok { streamId := sid, offset := off, length := r2.length, flag := flag } r2

/-- `complete_frame` of `qbase/src/frame.rs`: dispatch on the frame type;
CRYPTO and STREAM check that the frame's `length` bytes remain (otherwise
incomplete by the deficit) and slice them off as the payload. -/
def completeFrame (ft : FrameType) (input : List Nat) : PRes Frame :=
  match ft with
  | FrameType.padding => PRes.ok Frame.padding input
  | FrameType.ping => PRes.ok (Frame.info (InfoFrame.ping {})) input
  | FrameType.connectionClose layer =>
    (connectionCloseFrameAtLayer layer input).andThen fun f r => PRes.ok (Frame.close f) r
  | FrameType.newConnectionId =>
    (beNewConnectionIdFrame input).andThen fun f r =>
      PRes.ok (Frame.info (InfoFrame.newConnectionId f)) r
  | FrameType.retireConnectionId =>
    (beRetireConnectionIdFrame input).andThen fun f r =>
      PRes.ok (Frame.info (InfoFrame.retireConnectionId f)) r
  | FrameType.pathChallenge =>
    (bePathChallengeFrame input).andThen fun f r =>
      PRes.ok (Frame.info (InfoFrame.pathChallenge f)) r
  | FrameType.pathResponse =>
    (bePathResponseFrame input).andThen fun f r =>
      PRes.ok (Frame.info (InfoFrame.pathResponse f)) r
  | FrameType.handshakeDone => PRes.ok (Frame.info (InfoFrame.handshakeDone {})) input
  | FrameType.newToken =>
    (beNewTokenFrame input).andThen fun f r => PRes.ok (Frame.info (InfoFrame.newToken f)) r
  | FrameType.ack ecn =>
    (ackFrameWithFlag ecn input).andThen fun f r => PRes.ok (Frame.ack f) r
  | FrameType.resetStream =>
    (beResetStreamFrame input).andThen fun f r =>
      PRes.ok (Frame.info (InfoFrame.stream (StreamInfoFrame.resetStream f))) r
  | FrameType.dataBlocked =>
    (beDataBlockedFrame input).andThen fun f r =>
      PRes.ok (Frame.info (InfoFrame.dataBlocked f)) r
  | FrameType.maxData =>
    (beMaxDataFrame input).andThen fun f r => PRes.ok (Frame.info (InfoFrame.maxData f)) r
  | FrameType.stopSending =>
    (beStopSendingFrame input).andThen fun f r =>
      PRes.ok (Frame.info (InfoFrame.stream (StreamInfoFrame.stopSending f))) r
  | FrameType.maxStreamData =>
    (beMaxStreamDataFrame input).andThen fun f r =>
      PRes.ok (Frame.info (InfoFrame.stream (StreamInfoFrame.maxStreamData f))) r
  | FrameType.maxStreams dir =>
    (maxStreamsFrameWithDir dir input).andThen fun f r =>
      PRes.ok (Frame.info (InfoFrame.stream (StreamInfoFrame.maxStreams f))) r
  | FrameType.streamsBlocked dir =>
    (streamsBlockedFrameWithDir dir input).andThen fun f r =>
      PRes.ok (Frame.info (InfoFrame.stream (StreamInfoFrame.streamsBlocked f))) r
  | FrameType.streamDataBlocked =>
    (beStreamDataBlockedFrame input).andThen fun f r =>
      PRes.ok (Frame.info (InfoFrame.stream (StreamInfoFrame.streamDataBlocked f))) r
  | FrameType.crypto =>
    (beCryptoFrame input).andThen fun f r =>
      if r.length < f.length then PRes.needed (f.length - r.length)
      else PRes.ok (Frame.data (DataFrame.crypto f) (r.take f.length)) (r.drop f.length)
  | FrameType.stream flag =>
    (streamFrameWithFlag flag input).andThen fun f r =>
      if r.length < f.length then PRes.needed (f.length - r.length)
      else PRes.ok (Frame.data (DataFrame.stream f) (r.take f.length)) (r.drop f.length)

/-- `ext::be_frame` of `qbase/src/frame.rs` (lines 429–456): parse the
type varint (an incomplete varint is `IncompleteType`), map it to a
`FrameType` (unknown values are `InvalidType`), run the body parser
(incompleteness becomes `IncompleteFrame`, a failure `ParseError`), and
return the consumed byte count with the frame. -/
def beFrame (raw : List Nat) : Except FrameError (Nat × Frame) :=
  match beVarint raw with
  | PRes.needed _ => Except.error FrameError.incompleteType
  | PRes.failed => Except.error FrameError.incompleteType
  | PRes.ok fty remain =>
    match frameTypeFromVarint fty with
    | none => Except.error (FrameError.invalidType fty)
    | some ft =>
      match completeFrame ft remain with
      | PRes.needed _ => Except.error (FrameError.incompleteFrame ft)
      | PRes.failed => Except.error (FrameError.parseError ft)
      | PRes.ok frame remain2 => Except.ok (raw.length - remain2.length, frame)

/-- One `Iterator::next` call of `FrameReader` (`qbase/src/frame.rs`,
lines 306–325): an empty buffer yields `none`; a parsed frame advances the
buffer by the consumed bytes; an error clears the buffer and yields the
error. -/
def frameReaderNext (raw : List Nat) : Option (Except FrameError Frame) × List Nat :=
  if raw = [] then (none, raw)
  else
    match beFrame raw with
    | Except.ok (consumed, f) => (some (Except.ok f), raw.drop consumed)
    | Except.error e => (some (Except.error e), [])

/-- Iterating `FrameReader` to exhaustion, fuel-bounded (the fuel is spent
one unit per yielded item; `beFrame` consumes at least one byte per
success, so `raw.length + 1` units always suffice — see
`frameItems_eq_aux`). -/
def frameItemsAux (fuel : Nat) (raw : List Nat) : List (Except FrameError Frame) :=
  match fuel with
  | 0 => []
  | fuel + 1 =>
    if raw = [] then []
    else
      match beFrame raw with
      | Except.ok (consumed, f) => Except.ok f :: frameItemsAux fuel (raw.drop consumed)
      | Except.error e => [Except.error e]

/-- The full item sequence a `FrameReader` over `raw` yields before
returning `none`. -/
def frameItems (raw : List Nat) : List (Except FrameError Frame) :=
  frameItemsAux (raw.length + 1) raw

/-- A byte list is a self-delimited encoding of a frame: nonempty, and in
front of any continuation `be_frame` parses exactly it, producing the
frame.  This is how a frame other than the last one of a packet sits in
the buffer. -/
def EncodesFrame (b : List Nat) (f : Frame) : Prop :=
  b ≠ [] ∧ ∀ rest : List Nat, beFrame (b ++ rest) = Except.ok (b.length, f)

/-- A byte list parses as a single frame filling the whole buffer (how the
last frame of a packet sits in it; a STREAM frame without the LEN bit is
only of this kind). -/
def EncodesFinalFrame (b : List Nat) (f : Frame) : Prop :=
  b ≠ [] ∧ beFrame b = Except.ok (b.length, f)

/-!
Specification-side characterizations and concrete scenario states used by
the theorems below.
-/

/-- The loss condition of the claim on `detect_and_remove_lost_packets`:
a packet at or below `largest_acked` is lost when it was sent at or before
`now - loss_delay` or trails `largest_acked` by at least
`K_PACKET_THRESHOLD`. -/
def isLostPkt (la lostSendTime : Nat) (p : Sent) : Bool :=
  decide (p.pktNum ≤ la) &&
    (decide (p.timeSent ≤ lostSendTime) || decide (p.pktNum + kPacketThreshold ≤ la))

/-- The sent deque invariant of the claim: packet numbers strictly
increase in insertion order. -/
def SentAscending (l : List Sent) : Prop :=
  List.Chain' (fun a b => a.pktNum < b.pktNum) l

/-- The claim's reading of the loss-time candidate: the minimum recorded
loss time over the three spaces, none when no space records one. -/
def lossSpecTimer (st : CCState) : Option Nat :=
  ([Epoch.initial, Epoch.handshake, Epoch.data].filterMap st.lossTime).min?

/-- The claim's PTO base: `smoothed_rtt + max(4·rttvar, K_GRANULARITY)`. -/
def ptoBaseDuration (st : CCState) : Nat :=
  st.rtt.smoothedRtt + max kGranularity (st.rtt.rttvar * 4)

/-- The claim's per-space PTO: the base, plus `max_ack_delay · 2^pto_count`
for the Data space only. -/
def ptoOfSpace (st : CCState) (e : Epoch) : Nat :=
  ptoBaseDuration st + (if e = Epoch.data then st.maxAckDelay * 2 ^ st.ptoCount else 0)

/-- The spaces the claim lets contribute a PTO deadline: all three once the
handshake is confirmed, Initial/Handshake before that (the Data space being
skipped). -/
def ptoCandidateSpaces (st : CCState) : List Epoch :=
  if st.handshakeConfirmed then [Epoch.initial, Epoch.handshake, Epoch.data]
  else [Epoch.initial, Epoch.handshake]

/-- The PTO deadline the code computes, in the claim's minimum-over-spaces
form, extended with the case the claim misses: with no ack-eliciting packet
in flight (reached only while the peer has not validated its address) the
deadline is `now` plus the base duration. -/
def ptoSpecTimer (st : CCState) (now : Nat) : Option Nat :=
  if noAckElicitingInFlight st then some (now + ptoBaseDuration st)
  else
    ((ptoCandidateSpaces st).filterMap
      (fun e => (st.timeOfLastAckElicitingPacket e).map (fun t => t + ptoOfSpace st e))).min?

/-- The claim's scenario: five 1000-byte ack-eliciting in-flight packets
with packet numbers 1–5, all sent at t₀ = 400000µs, in the Initial space
of a fresh controller. -/
def lossScenarioSent : Option CCState :=
  (onPacketSent newCC 1 Epoch.initial true true 1000 400000).bind fun s =>
    (onPacketSent s 2 Epoch.initial true true 1000 400000).bind fun s =>
      (onPacketSent s 3 Epoch.initial true true 1000 400000).bind fun s =>
        (onPacketSent s 4 Epoch.initial true true 1000 400000).bind fun s =>
          onPacketSent s 5 Epoch.initial true true 1000 400000

/-- The claim's scenario after `ACK{largest=5}`: the largest acknowledged
packet number becomes 5 and packet 5 leaves the deque (as in the source's
`test_detect_and_remove_lost_packets`, which sets `largest_acked_packet`
and pops the acked packet before running loss detection). -/
def lossScenarioAcked : Option CCState :=
  lossScenarioSent.map fun s =>
    { s with
      largestAckedPacket := updE s.largestAckedPacket Epoch.initial (some 5),
      sentPackets := updE s.sentPackets Epoch.initial (s.sentPackets Epoch.initial).dropLast }

/-- First loss-detection run of the scenario, at t₀. -/
def lossScenarioRun1 : Option (List Sent × CCState) :=
  lossScenarioAcked.bind fun s => detectAndRemoveLostPackets s Epoch.initial 400000

/-- Second loss-detection run of the scenario, 417ms after t₀ (more than
the loss delay of 374.625ms later). -/
def lossScenarioRun2 : Option (List Sent × CCState) :=
  lossScenarioRun1.bind fun r => detectAndRemoveLostPackets r.2 Epoch.initial 817000

/-- A controller state whose Initial space has recorded largest
acknowledged packet number 5 (nothing in flight). -/
def ccRecorded5 : CCState :=
  { newCC with largestAckedPacket := updE newCC.largestAckedPacket Epoch.initial (some 5) }

/-- An ACK frame whose `largest_acked` (= 3) is below the 5 recorded in
`ccRecorded5`: one range, `[3..3]`. -/
def ackLargest3 : AckFrame :=
  { largest := 3, delay := 0, firstRange := 0, ranges := [], ecn := none }

/-- A transmitter state that has recorded `largest_acked_pktid = 5`, with
two packets still in flight. -/
def txRecorded5 : TxState :=
  { spaceId := SpaceId.initial,
    inflightOffset := 0,
    inflight :=
      [none, none, none, none,
        some { sendTime := 100, sentBytes := 800, isAckEliciting := true },
        some { sendTime := 120, sentBytes := 900, isAckEliciting := true }],
    timeOfLastSentAckElicitingPacket := some 120,
    largestAckedPktid := some 5 }

/-- The Retry header-specific value of the round-trip failing input: a
one-byte token `[0]` and the integrity tag `[1, …, 16]`. -/
def retryFailing : RetrySpecific :=
  { token := [0], integrity := [1, 2, 3, 4, 5, 6, 7, 8, 9, 10, 11, 12, 13, 14, 15, 16] }

/-- A single STREAM frame encoding with the LEN bit clear (type `0x08`,
stream id 0, two data bytes): it is a valid final frame. -/
def streamNoLenBytes : List Nat := [0x08, 0x00, 0xAA, 0xBB]

/-- The frame `streamNoLenBytes` encodes. -/
def streamNoLenFrame : Frame :=
  Frame.data (DataFrame.stream { streamId := 0, offset := 0, length := 2, flag := 0 }) [0xAA, 0xBB]

/-- The frame the truncation `[0x08, 0x00, 0xAA]` of `streamNoLenBytes`
parses as. -/
def streamNoLenShorter : Frame :=
  Frame.data (DataFrame.stream { streamId := 0, offset := 0, length := 1, flag := 0 }) [0xAA]

/-- A controller whose Initial space already holds a sent packet with
packet number 5. -/
def ccFive : CCState :=
  { newCC with
    sentPackets := updE newCC.sentPackets Epoch.initial
      [{ pktNum := 5, timeSent := 0, size := 1000, ackEliciting := true, inFlight := true }] }

/-!
Theorems.  General lemmas about the embedded operations come first, then
one theorem per claim (with its witness or counterexample where needed).
-/

theorem updE_same {α : Type} (f : Epoch → α) (e : Epoch) (v : α) : updE f e v e = v := by
  simp [updE]

theorem setLostDetectionTimer_sentPackets (st : CCState) (now : Nat) :
    (setLostDetectionTimer st now).sentPackets = st.sentPackets := by
  unfold setLostDetectionTimer
  split
  · rfl
  · split
    · rfl
    · split <;> rfl

theorem setLostDetectionTimer_largestAcked (st : CCState) (now : Nat) :
    (setLostDetectionTimer st now).largestAckedPacket = st.largestAckedPacket := by
  unfold setLostDetectionTimer
  split
  · rfl
  · split
    · rfl
    · split <;> rfl

theorem detectAndRemoveLostPackets_largestAcked (st : CCState) (e : Epoch) (now : Nat)
    (lost : List Sent) (st' : CCState)
    (h : detectAndRemoveLostPackets st e now = some (lost, st')) :
    st'.largestAckedPacket = st.largestAckedPacket := by
  unfold detectAndRemoveLostPackets at h
  split at h
  · exact absurd h (by simp)
  · dsimp only at h
    split at h
    · simp only [Option.some.injEq, Prod.mk.injEq] at h
      rw [← h.2]
    · exact absurd h (by simp)

theorem onPacketAcked_largestAcked (st : CCState) (pn : Nat) (e : Epoch) (now : Nat)
    (x : Option Acked) (st' : CCState)
    (h : onPacketAcked st pn e now = some (x, st')) :
    st'.largestAckedPacket = st.largestAckedPacket := by
  unfold onPacketAcked at h
  split at h
  · simp only [Option.some.injEq, Prod.mk.injEq] at h
    rw [← h.2]
  · rename_i p hrem
    dsimp only at h
    split at h
    · exact absurd h (by simp)
    · rename_i r hdet
      simp only [Option.some.injEq, Prod.mk.injEq] at h
      have h2 := detectAndRemoveLostPackets_largestAcked _ _ _ _ _ hdet
      rw [← h.2, setLostDetectionTimer_largestAcked]
      split <;> simpa using h2

/-- C5.  The Retry header writer and parser do not round-trip: `be_retry`
reads the token first and the 16-byte integrity tag last (the RFC 9000
wire layout the claim states), but `Write<Retry>::put_specific` emits the
integrity tag before the token.  On the failing input (token `[0]`,
integrity `[1..16]`) parsing the written bytes yields token `[1]` and
integrity `[2..16, 0]` instead of the original header; a third conjunct
shows the parser alone does follow the token-then-tag layout. -/
theorem retryRoundTrip_bug :
    beRetry (putRetry retryFailing) =
      some ([], { token := [1],
                  integrity := [2, 3, 4, 5, 6, 7, 8, 9, 10, 11, 12, 13, 14, 15, 16, 0] }) ∧
    beRetry (putRetry retryFailing) ≠ some ([], retryFailing) ∧
    beRetry ([7, 7, 7] ++ [1, 2, 3, 4, 5, 6, 7, 8, 9, 10, 11, 12, 13, 14, 15, 16]) =
      some ([], { token := [7, 7, 7],
                  integrity := [1, 2, 3, 4, 5, 6, 7, 8, 9, 10, 11, 12, 13, 14, 15, 16] }) := by
  refine ⟨by decide, by decide, by decide⟩

/-- C6.  `Outgoing::stop` moves Sending and DataSent to ResetSent and
leaves DataRecvd/ResetSent/ResetRecvd unchanged, and `confirm_reset`
reaches the terminal ResetRecvd from ResetSent (and stays there) — but in
Ready, where the claim (and the spec's state machine) require a transition
to ResetSent, `stop` hits the `unreachable!` assertion and panics
(modelled `none`). -/
theorem outgoingStop_transitions :
    (∀ b, outgoingStop (Sender.ready b) = none) ∧
    (∀ b, outgoingStop (Sender.sending b) = some Sender.resetSent) ∧
    (∀ b, outgoingStop (Sender.dataSent b) = some Sender.resetSent) ∧
    outgoingStop Sender.dataRecvd = some Sender.dataRecvd ∧
    outgoingStop Sender.resetSent = some Sender.resetSent ∧
    outgoingStop Sender.resetRecvd = some Sender.resetRecvd ∧
    outgoingConfirmReset Sender.resetSent = some Sender.resetRecvd ∧
    outgoingConfirmReset Sender.resetRecvd = some Sender.resetRecvd :=
  ⟨fun _ => rfl, fun _ => rfl, fun _ => rfl, rfl, rfl, rfl, rfl, rfl⟩

/-- C10.  Converting a 0-RTT frame into the 1-RTT info group and back
succeeds and returns the original frame: the conversion back is a left
inverse of the embedding. -/
theorem zeroRttRoundTrip_spec (z : ZeroRttFrame) :
    zeroRttTryFromInfo (infoFromZeroRtt z) = Except.ok z := by
  cases z with
  | ping f => cases f; rfl
  | maxData f => rfl
  | dataBlocked f => rfl
  | newConnectionId f => rfl
  | retireConnectionId f => rfl
  | pathChallenge f => rfl
  | stream f => rfl

/-- C4.  `TryFrom<InfoFrame> for ZeroRttFrame` succeeds exactly on the
frame kinds the spec admits in 0-RTT packets (Ping, MaxData, DataBlocked,
NewConnectionId, RetireConnectionId, PathChallenge and the stream-control
group), and on every other kind fails with `WrongFrame` naming the
offending frame type and the 0-RTT context. -/
theorem zeroRttConversion_spec (f : InfoFrame) :
    (zeroRttAdmissible f = true ↔ ∃ z, zeroRttTryFromInfo f = Except.ok z) ∧
    (zeroRttAdmissible f = false →
      zeroRttTryFromInfo f =
        Except.error (FrameError.wrongFrame (infoFrameType f) "Zero rtt data")) := by
  cases f <;> simp [zeroRttAdmissible, zeroRttTryFromInfo, infoFrameType]

/-- Witness for C4: a NEW_TOKEN frame is rejected with the 0-RTT
`WrongFrame` error, and a MAX_DATA frame converts. -/
theorem zeroRttConversion_witness :
    zeroRttTryFromInfo (InfoFrame.newToken { token := [9] }) =
      Except.error (FrameError.wrongFrame FrameType.newToken "Zero rtt data") ∧
    (∃ z, zeroRttTryFromInfo (InfoFrame.maxData { maxData := 7 }) = Except.ok z) := by
  refine ⟨(zeroRttConversion_spec (InfoFrame.newToken { token := [9] })).2 rfl, ?_⟩
  exact (zeroRttConversion_spec (InfoFrame.maxData { maxData := 7 })).1.mp rfl

/-- Counterexample for C2.  With largest acknowledged packet number 5
recorded in the Initial space, processing an ACK frame whose largest is 3
makes `CongestionController::on_acked` fail its
`assert!(pn > largest_packet_acked)` (modelled `none`) instead of
returning with the state unchanged. -/
theorem olderAck_counterexample :
    ccRecorded5.largestAckedPacket Epoch.initial = some 5 ∧
    ackLargest3.largest = 3 ∧
    onAcked ccRecorded5 Epoch.initial ackLargest3 1000 = none := by
  exact ⟨rfl, rfl, rfl⟩

/-- Counterexample for C3.  On a fresh controller (no loss time recorded,
no anti-amplification, no ack-eliciting packet in flight, peer address not
validated) the claim's formula — the minimum over spaces of
`time_of_last_ack_eliciting_sent + pto` — has no candidate, yet the code
arms the timer at `now + (smoothed_rtt + max(4·rttvar, K_GRANULARITY))`
= 5000000 + 999000. -/
theorem lossTimer_counterexample :
    (∀ e, newCC.lossTime e = none) ∧
    newCC.antiAmplification = false ∧
    peerCompletedAddressValidation newCC = false ∧
    (∀ e, newCC.timeOfLastAckElicitingPacket e = none) ∧
    (setLostDetectionTimer newCC 5000000).lossDetectionTimer = some 5999000 := by
  refine ⟨fun e => rfl, rfl, rfl, fun e => rfl, rfl⟩

theorem onAckedLoop_older_none (e : Epoch) (largest delay now v : Nat)
    (hlt : largest < v) :
    ∀ (l : List Nat) (st : CCState), st.largestAckedPacket e = some v →
      largest ∈ l → onAckedLoop e largest delay now st l = none := by
  intro l
  induction l with
  | nil => intro st _ hmem; cases hmem
  | cons pn rest ih =>
    intro st hv hmem
    unfold onAckedLoop
    by_cases hpn : pn = largest
    · subst hpn
      simp only [if_pos rfl, hv]
      have : ¬ v < pn := Nat.not_lt.mpr (Nat.le_of_lt hlt)
      simp [this]
    · rw [if_neg hpn]
      have hmem' : largest ∈ rest := by
        rcases List.mem_cons.mp hmem with h | h
        · exact absurd h.symm hpn
        · exact h
      cases hoa : onPacketAcked st pn e now with
      | none => rfl
      | some pr =>
        obtain ⟨x, st2⟩ := pr
        have hpres := onPacketAcked_largestAcked st pn e now x st2 hoa
        exact ih st2 (by rw [hpres]; exact hv) hmem'

/-- C2 (amended).  An ACK frame whose `largest_acked` is below the largest
already recorded is dropped silently by `Transmitter::recv_ack_frame`
(state and RTT unchanged); `CongestionController::on_acked`, however, when
its per-packet loop reaches the frame's largest packet number, fails the
monotonicity assertion `assert!(pn > largest_packet_acked)` instead of
returning (modelled `none`). -/
theorem olderAck_amended :
    (∀ (st : TxState) (ack : AckFrame) (rtt : Rtt) (now v : Nat),
        st.largestAckedPktid = some v → ack.largest < v →
        recvAckFrame st ack rtt now = some (st, rtt)) ∧
    (∀ (st : CCState) (e : Epoch) (ack : AckFrame) (now v : Nat),
        st.largestAckedPacket e = some v → ack.largest < v →
        ack.largest ∈ ackPns ack →
        onAcked st e ack now = none) := by
  constructor
  · intro st ack rtt now v hv hlt
    unfold recvAckFrame
    rw [hv]
    simp [hlt]
  · intro st e ack now v hv hlt hmem
    unfold onAcked
    exact onAckedLoop_older_none e ack.largest ack.delay now v hlt (ackPns ack) st hv hmem

/-- Witness for C2's amended claim: with `largest_acked_pktid = 5`
recorded, the transmitter drops `ACK{largest = 3}` leaving its state and
the RTT untouched, while the congestion controller's `on_acked` asserts. -/
theorem olderAck_witness :
    recvAckFrame txRecorded5 ackLargest3 Rtt.init 1000 = some (txRecorded5, Rtt.init) ∧
    onAcked ccRecorded5 Epoch.initial ackLargest3 77 = none := by
  constructor
  · exact olderAck_amended.1 txRecorded5 ackLargest3 Rtt.init 1000 5 rfl (by decide)
  · exact olderAck_amended.2 ccRecorded5 Epoch.initial ackLargest3 77 5 rfl (by decide)
      (by decide)

theorem onPacketSentPre_sentPackets (st : CCState) (e : Epoch) (ae inf : Bool) (now : Nat) :
    (onPacketSentPre st e ae inf now).sentPackets = st.sentPackets := by
  unfold onPacketSentPre
  split
  · rw [setLostDetectionTimer_sentPackets]
    split <;> rfl
  · rfl

/-- C8.  `on_packet_sent` preserves the strictly-ascending packet-number
invariant of the per-space sent deque (the new packet is appended only
after the assertion that its number exceeds the last recorded one), and a
call whose packet number is at most the last recorded one fails the
assertion (modelled `none`). -/
theorem onPacketSent_spec :
    (∀ (st : CCState) (pn : Nat) (e : Epoch) (ae inf : Bool) (sz now : Nat) (st' : CCState),
        SentAscending (st.sentPackets e) →
        onPacketSent st pn e ae inf sz now = some st' →
        SentAscending (st'.sentPackets e)) ∧
    (∀ (st : CCState) (pn : Nat) (e : Epoch) (ae inf : Bool) (sz now : Nat) (lastp : Sent),
        (st.sentPackets e).getLast? = some lastp → pn ≤ lastp.pktNum →
        onPacketSent st pn e ae inf sz now = none) := by
  constructor
  · intro st pn e ae inf sz now st' hasc h
    unfold onPacketSent at h
    dsimp only at h
    rw [onPacketSentPre_sentPackets] at h
    split at h
    · rename_i lastp hl
      split at h
      · rename_i hgt
        simp only [Option.some.injEq] at h
        subst h
        dsimp only
        rw [updE_same]
        unfold SentAscending at hasc ⊢
        rw [List.chain'_append]
        refine ⟨hasc, List.chain'_singleton _, ?_⟩
        intro x hx y hy
        rw [Option.mem_def] at hx hy
        rw [hl] at hx
        injection hx with hx
        simp only [List.head?_cons, Option.some.injEq] at hy
        subst hx
        subst hy
        exact hgt
      · cases h
    · rename_i hl
      simp only [Option.some.injEq] at h
      subst h
      dsimp only
      rw [updE_same]
      have hnil : st.sentPackets e = [] := by
        cases hst : st.sentPackets e with
        | nil => rfl
        | cons a l => rw [hst] at hl; simp at hl
      rw [hnil]
      exact List.chain'_singleton _
  · intro st pn e ae inf sz now lastp hl hle
    unfold onPacketSent
    dsimp only
    rw [onPacketSentPre_sentPackets, hl]
    split
    · rename_i lastp' heq
      injection heq with heq
      subst heq
      rw [if_neg (by omega)]
    · rename_i heq
      cases heq

/-- Witness for C8: appending packet number 7 after 5 keeps the deque
strictly ascending, and appending packet number 3 after 5 fails the
assertion. -/
theorem onPacketSent_witness :
    SentAscending (((onPacketSent ccFive 7 Epoch.initial true true 1000 0).getD newCC).sentPackets
      Epoch.initial) ∧
    onPacketSent ccFive 3 Epoch.initial true true 1000 0 = none := by
  constructor
  · exact onPacketSent_spec.1 ccFive 7 Epoch.initial true true 1000 0
      ((onPacketSent ccFive 7 Epoch.initial true true 1000 0).getD newCC)
      (List.chain'_singleton _) rfl
  · exact onPacketSent_spec.2 ccFive 3 Epoch.initial true true 1000 0
      { pktNum := 5, timeSent := 0, size := 1000, ackEliciting := true, inFlight := true }
      rfl (by decide)

theorem detectLoop_eq (la lst ld : Nat) (l : List Sent) :
    detectLoop la lst ld l =
      (l.filter (isLostPkt la lst),
       l.filter (fun p => !isLostPkt la lst p),
       ((l.filter (fun p => decide (p.pktNum ≤ la) && !isLostPkt la lst p)).map
          (fun p => p.timeSent + ld)).min?) := by
  induction l with
  | nil => rfl
  | cons p rest ih =>
    unfold detectLoop
    rw [ih]
    by_cases h1 : la < p.pktNum
    · have hlost : isLostPkt la lst p = false := by
        simp only [isLostPkt, Bool.and_eq_false_iff, decide_eq_false_iff_not]
        left
        omega
      have hna : ¬ p.pktNum ≤ la := by omega
      simp [h1, hlost, hna]
    · rw [if_neg h1]
      have hple : p.pktNum ≤ la := by omega
      by_cases h2 : (decide (p.timeSent ≤ lst) || decide (p.pktNum + kPacketThreshold ≤ la)) = true
      · have hlost : isLostPkt la lst p = true := by
          simp only [isLostPkt, Bool.and_eq_true, decide_eq_true_eq]
          exact ⟨hple, h2⟩
        rw [if_pos h2]
        simp [hlost]
      · have h2' : (decide (p.timeSent ≤ lst) || decide (p.pktNum + kPacketThreshold ≤ la)) = false :=
          Bool.of_not_eq_true h2
        have hlost : isLostPkt la lst p = false := by
          simp only [isLostPkt, Bool.and_eq_false_iff]
          right
          exact h2'
        rw [if_neg (by simp [h2'])]
        simp only [List.filter_cons, hlost, hple, Bool.not_false, Bool.and_true, decide_eq_true_eq]
        simp [List.min?_cons, Option.elim, Nat.min_comm]
        cases hm : ((rest.filter fun p => decide (p.pktNum ≤ la) && !isLostPkt la lst p).map
            (fun p => p.timeSent + ld)).min? with
        | none => simp
        | some m => simp [Nat.min_comm]

/-- C1.  `detect_and_remove_lost_packets` with a recorded `largest_acked`:
the removed (lost) packets are exactly the sent packets with
`pn ≤ largest_acked` that were sent at or before `now − loss_delay` or
trail the largest acknowledged by at least `K_PACKET_THRESHOLD = 3`; the
kept packets are the rest; the space's loss time becomes the minimum of
`send_time + loss_delay` over the kept packets with `pn ≤ largest_acked`
(none when there are none).  In particular, in the concrete scenario —
packet numbers 1–5 sent at t₀ in Initial, largest acknowledged 5 with
packet 5 removed — the first run at t₀ loses exactly {1, 2} and keeps
{3, 4}, and a second run 417ms later (loss delay = 374.625ms elapsed)
loses exactly {3, 4}, emptying the deque. -/
theorem detectAndRemoveLost_spec (st : CCState) (e : Epoch) (now la : Nat)
    (hla : st.largestAckedPacket e = some la)
    (hnow : st.rtt.lossDelay ≤ now) :
    (detectAndRemoveLostPackets st e now =
      some ((st.sentPackets e).filter (isLostPkt la (now - st.rtt.lossDelay)),
        { st with
          sentPackets := updE st.sentPackets e
            ((st.sentPackets e).filter (fun p => !isLostPkt la (now - st.rtt.lossDelay) p)),
          lossTime := updE st.lossTime e
            (((st.sentPackets e).filter
                (fun p => decide (p.pktNum ≤ la) && !isLostPkt la (now - st.rtt.lossDelay) p)).map
              (fun p => p.timeSent + st.rtt.lossDelay)).min? })) ∧
    (lossScenarioRun1.map fun r => r.1.map Sent.pktNum) = some [1, 2] ∧
    (lossScenarioRun1.map fun r => (r.2.sentPackets Epoch.initial).map Sent.pktNum) =
      some [3, 4] ∧
    (lossScenarioRun1.map fun r => r.2.lossTime Epoch.initial) = some (some 774625) ∧
    (lossScenarioRun2.map fun r => r.1.map Sent.pktNum) = some [3, 4] ∧
    (lossScenarioRun2.map fun r => r.2.sentPackets Epoch.initial) = some [] := by
  refine ⟨?_, by decide, by decide, by decide, by decide, by decide⟩
  unfold detectAndRemoveLostPackets
  rw [hla]
  dsimp only
  rw [if_pos hnow]
  rw [detectLoop_eq]

/-- Witness for C1: a controller with `largest_acked = 5` recorded in the
Initial space runs loss detection successfully at t = 400000µs. -/
theorem detectAndRemoveLost_witness :
    (detectAndRemoveLostPackets ccRecorded5 Epoch.initial 400000).isSome = true := by
  have h := (detectAndRemoveLost_spec ccRecorded5 Epoch.initial 400000 5 rfl (by decide)).1
  rw [h]
  rfl

theorem getLossTime_eq (st : CCState) : (getLossTimeAndSpace st).1 = lossSpecTimer st := by
  unfold getLossTimeAndSpace getLossTimeStep lossSpecTimer
  cases hI : st.lossTime Epoch.initial <;> cases hH : st.lossTime Epoch.handshake <;>
    cases hD : st.lossTime Epoch.data <;>
      simp [hI, hH, hD, List.min?_cons, List.min?_nil, Option.elim, Option.some.injEq,
        apply_ite (f := Prod.fst)] <;>
      repeat
        first
        | omega
        | rfl
        | (split_ifs <;> simp_all)

theorem getPto_eq (st : CCState) (now : Nat) :
    (getPtoTimeAndSpace st now).1 = ptoSpecTimer st now := by
  unfold getPtoTimeAndSpace ptoSpecTimer
  cases hno : noAckElicitingInFlight st with
  | true => simp [ptoBaseDuration]
  | false =>
    simp only [Bool.false_eq_true, if_false]
    cases hc : st.handshakeConfirmed <;>
      cases hI : st.timeOfLastAckElicitingPacket Epoch.initial <;>
        cases hH : st.timeOfLastAckElicitingPacket Epoch.handshake <;>
          cases hD : st.timeOfLastAckElicitingPacket Epoch.data <;>
            simp [ptoLoop, ptoStep, ptoCandidateSpaces, ptoOfSpace, ptoBaseDuration, hno, hc,
              hI, hH, hD, List.min?_cons, List.min?_nil, Option.elim, Option.some.injEq,
              apply_ite (f := Prod.fst)] <;>
            repeat
              first
              | omega
              | rfl
              | (split_ifs <;> simp_all)

/-- C3 (amended).  After `set_lost_detection_timer`, the timer is the
minimum recorded loss time over the spaces if any is set; otherwise it is
disarmed under anti-amplification, or when no ack-eliciting packet is in
flight and the peer has completed address validation; otherwise, when no
ack-eliciting packet is in flight (peer not yet validated), it is armed at
`now + pto` with `pto = smoothed_rtt + max(4·rttvar, K_GRANULARITY)` — the
case the claim's minimum-over-spaces formula does not cover; otherwise it
is the minimum over spaces of `time_of_last_ack_eliciting_sent[S] + pto`,
with `max_ack_delay · 2^pto_count` added for the Data space only and the
Data space skipped while the handshake is not confirmed. -/
theorem lossTimer_amended (st : CCState) (now : Nat) :
    (setLostDetectionTimer st now).lossDetectionTimer =
      match lossSpecTimer st with
      | some t => some t
      | none =>
        if st.antiAmplification then none
        else if noAckElicitingInFlight st && peerCompletedAddressValidation st then none
        else ptoSpecTimer st now := by
  unfold setLostDetectionTimer
  rw [getLossTime_eq]
  cases h : lossSpecTimer st with
  | some t => rfl
  | none =>
    split_ifs with h1 h2
    · rfl
    · rfl
    · show (getPtoTimeAndSpace st now).1 = _
      exact getPto_eq st now

/-!
Lemmas about sorted color maps, for the send-buffer invariant (C9).
-/

theorem head_dropWhile_false {α : Type} (p : α → Bool) (l : List α) :
    ∀ a, (l.dropWhile p).head? = some a → p a = false := by
  induction l with
  | nil => intro a h; cases h
  | cons x t ih =>
    intro a h
    rw [List.dropWhile_cons] at h
    split at h
    · exact ih a h
    · rename_i hx
      simp only [List.head?_cons, Option.some.injEq] at h
      rw [← h]
      exact Bool.of_not_eq_true hx

theorem mem_of_headOpt {α : Type} {l : List α} {a : α} (h : l.head? = some a) : a ∈ l := by
  cases l with
  | nil => cases h
  | cons x t =>
    simp only [List.head?_cons, Option.some.injEq] at h
    rw [← h]
    exact List.mem_cons_self x t

theorem reverse_dropWhile_reverse_isPre {α : Type} (p : α → Bool) (l : List α) :
    ((l.reverse.dropWhile p).reverse) <+: l := by
  have h1 := List.dropWhile_suffix (l := l.reverse) p
  obtain ⟨t, ht⟩ := h1
  refine ⟨t.reverse, ?_⟩
  have : (t ++ l.reverse.dropWhile p).reverse = l.reverse.reverse := by rw [ht]
  simpa [List.reverse_append] using this

theorem getLast_reverse_dropWhile_reverse {α : Type} (p : α → Bool) (l : List α) :
    ∀ a, ((l.reverse.dropWhile p).reverse).getLast? = some a → p a = false := by
  intro a h
  rw [List.getLast?_reverse] at h
  exact head_dropWhile_false p l.reverse a h

theorem mem_of_getLastOpt {α : Type} {l : List α} {a : α} (h : l.getLast? = some a) : a ∈ l := by
  have h2 : l.reverse.head? = some a := by rw [List.head?_reverse]; exact h
  exact List.mem_reverse.mp (mem_of_headOpt h2)

theorem chain_lt_last {l : List (Nat × Color)} {m : Nat × Color}
    (hs : List.Chain' (fun a b => a.1 < b.1) l) (hm : l.getLast? = some m) :
    ∀ a ∈ l, a.1 ≤ m.1 := by
  induction l with
  | nil => intro a ha; cases ha
  | cons x t ih =>
    intro a ha
    cases t with
    | nil =>
      simp only [List.getLast?_singleton, Option.some.injEq] at hm
      rcases List.mem_singleton.mp ha with rfl
      rw [hm]
    | cons y t' =>
      have hm' : (y :: t').getLast? = some m := by
        rw [List.getLast?_cons_cons] at hm
        exact hm
      have hchain := List.chain'_cons.mp hs
      rcases List.mem_cons.mp ha with rfl | ha'
      · have hy : y.1 ≤ m.1 := ih hchain.2 hm' y (List.mem_cons_self y t')
        omega
      · exact ih hchain.2 hm' a ha'

theorem chain_lt_head {l : List (Nat × Color)} {x : Nat × Color}
    (hs : List.Chain' (fun a b => a.1 < b.1) (x :: l)) :
    ∀ a ∈ l, x.1 < a.1 := by
  induction l generalizing x with
  | nil => intro a ha; cases ha
  | cons y t ih =>
    intro a ha
    have h1 := List.chain'_cons.mp hs
    rcases List.mem_cons.mp ha with rfl | ha'
    · exact h1.1
    · have := ih h1.2 a ha'
      have := h1.1
      omega

theorem dropTrailingPending_isPre (l : List (Nat × Color)) : dropTrailingPending l <+: l :=
  reverse_dropWhile_reverse_isPre _ l

theorem dropTrailingPending_last (l : List (Nat × Color)) :
    ∀ a, (dropTrailingPending l).getLast? = some a → (a.2 == Color.pending) = false :=
  getLast_reverse_dropWhile_reverse _ l

theorem dropTrailingRecvd_isPre (l : List (Nat × Color)) : dropTrailingRecvd l <+: l :=
  reverse_dropWhile_reverse_isPre _ l

theorem dropTrailingRecvd_last (l : List (Nat × Color)) :
    ∀ a, (dropTrailingRecvd l).getLast? = some a → (a.2 == Color.recved) = false :=
  getLast_reverse_dropWhile_reverse _ l

theorem ColorMapInv.nil : ColorMapInv [] := ⟨List.chain'_nil, List.chain'_nil⟩

theorem writePreservesInv (b : SendBuf) (bytes : List Nat) (r : Nat) (b2 : SendBuf)
    (hinv : ColorMapInv b.state) (h : b.write bytes = some (r, b2)) :
    ColorMapInv b2.state := by
  unfold SendBuf.write at h
  split at h
  · cases h
  · dsimp only at h
    split at h
    · simp only [Option.some.injEq, Prod.mk.injEq] at h
      obtain ⟨-, hb2⟩ := h
      rw [← hb2]
      dsimp only
      have hpre := dropTrailingPending_isPre b.state
      have hsort : List.Chain' (fun a b => a.1 < b.1) (dropTrailingPending b.state) :=
        List.Chain'.prefix hinv.1 hpre
      have halt : List.Chain' (fun a b => a.2 ≠ b.2) (dropTrailingPending b.state) :=
        List.Chain'.prefix hinv.2 hpre
      constructor
      · rw [List.chain'_append]
        refine ⟨hsort, List.chain'_singleton _, ?_⟩
        intro x hx y hy
        simp only [List.head?_cons, Option.mem_def, Option.some.injEq] at hy
        rw [Option.mem_def] at hx
        have hxmem : x ∈ b.state := hpre.subset (mem_of_getLastOpt hx)
        have hxle : x.1 ≤ b.wrote := by
          unfold SendBuf.wrote
          cases hlast : b.state.getLast? with
          | none =>
            rw [List.getLast?_eq_none_iff] at hlast
            rw [hlast] at hxmem
            cases hxmem
          | some m => exact chain_lt_last hinv.1 hlast x hxmem
        rw [← hy]
        simp only
        omega
      · rw [List.chain'_append]
        refine ⟨halt, List.chain'_singleton _, ?_⟩
        intro x hx y hy
        simp only [List.head?_cons, Option.mem_def, Option.some.injEq] at hy
        rw [Option.mem_def] at hx
        have := dropTrailingPending_last b.state x hx
        rw [← hy]
        simp only [beq_eq_false_iff_ne, ne_eq] at this
        simpa using this
    · simp only [Option.some.injEq, Prod.mk.injEq] at h
      rw [← h.2]
      exact hinv

theorem sorted_three_split (s e : Nat) (hse : s < e) (l : List (Nat × Color))
    (hs : List.Chain' (fun a b => a.1 < b.1) l) :
    l = l.filter (fun p => decide (p.1 < s)) ++
        l.filter (fun p => decide (s ≤ p.1) && decide (p.1 < e)) ++
        l.filter (fun p => decide (e ≤ p.1)) := by
  induction l with
  | nil => rfl
  | cons a t ih =>
    have hgt := chain_lt_head hs
    have ht : List.Chain' (fun a b => a.1 < b.1) t := (List.chain'_cons'.mp hs).2
    have iht := ih ht
    by_cases h1 : a.1 < s
    · have e1 : decide (a.1 < s) = true := by simp [h1]
      have e2 : (decide (s ≤ a.1) && decide (a.1 < e)) = false := by
        simp only [Bool.and_eq_false_iff, decide_eq_false_iff_not]
        left; omega
      have e3 : decide (e ≤ a.1) = false := by
        simp only [decide_eq_false_iff_not]; omega
      conv_lhs => rw [iht]
      simp [List.filter_cons, e1, e2, e3, List.append_assoc]
    · by_cases h2 : a.1 < e
      · have e1 : decide (a.1 < s) = false := by simp [h1]
        have e2 : (decide (s ≤ a.1) && decide (a.1 < e)) = true := by
          simp only [Bool.and_eq_true, decide_eq_true_eq]
          omega
        have e3 : decide (e ≤ a.1) = false := by
          simp only [decide_eq_false_iff_not]; omega
        have hB : t.filter (fun p => decide (p.1 < s)) = [] := by
          rw [List.filter_eq_nil_iff]
          intro x hx
          have := hgt x hx
          simp only [decide_eq_true_eq]
          omega
        conv_lhs => rw [iht]
        simp [List.filter_cons, e1, e2, e3, hB, List.append_assoc]
      · have e1 : decide (a.1 < s) = false := by simp [h1]
        have e2 : (decide (s ≤ a.1) && decide (a.1 < e)) = false := by
          simp only [Bool.and_eq_false_iff, decide_eq_false_iff_not]
          right; omega
        have e3 : decide (e ≤ a.1) = true := by
          simp only [decide_eq_true_eq]; omega
        have hB : t.filter (fun p => decide (p.1 < s)) = [] := by
          rw [List.filter_eq_nil_iff]
          intro x hx
          have := hgt x hx
          simp only [decide_eq_true_eq]
          omega
        have hM : t.filter (fun p => decide (s ≤ p.1) && decide (p.1 < e)) = [] := by
          rw [List.filter_eq_nil_iff]
          intro x hx
          have := hgt x hx
          simp only [Bool.and_eq_true, decide_eq_true_eq, not_and]
          omega
        conv_lhs => rw [iht]
        simp [List.filter_cons, e1, e2, e3, hB, hM, List.append_assoc]

theorem dropWhile_of_takeWhile_nil {α : Type} {p : α → Bool} {l : List α}
    (h : l.takeWhile p = []) : l.dropWhile p = l := by
  cases l with
  | nil => rfl
  | cons a t =>
    rw [List.takeWhile_cons] at h
    rw [List.dropWhile_cons]
    split at h
    · cases h
    · rename_i hp
      rw [if_neg hp]

theorem head_of_takeWhile_nil {α : Type} {p : α → Bool} {l : List α}
    (h : l.takeWhile p = []) : ∀ a, l.head? = some a → p a = false := by
  intro a ha
  cases l with
  | nil => cases ha
  | cons x t =>
    simp only [List.head?_cons, Option.some.injEq] at ha
    rw [List.takeWhile_cons] at h
    split at h
    · cases h
    · rename_i hp
      rw [← ha]
      exact Bool.of_not_eq_true hp

/-- Invariant of the state `SendBuf::ack` assembles: a left part `X` (all
keys below the range end, its last entry not Recved), the re-inserted
range end merged forward over the Recved run of the right part, and the
rest of the right part. -/
theorem ackAssembleInv (X A2 : List (Nat × Color)) (e : Nat)
    (hXsort : List.Chain' (fun a b => a.1 < b.1) X)
    (hXalt : List.Chain' (fun a b => a.2 ≠ b.2) X)
    (hXall : ∀ p ∈ X, p.1 < e)
    (hXlast : ∀ x, X.getLast? = some x → x.2 ≠ Color.recved)
    (hA2sort : List.Chain' (fun a b => a.1 < b.1) A2)
    (hA2alt : List.Chain' (fun a b => a.2 ≠ b.2) A2)
    (hA2all : ∀ p ∈ A2, e < p.1) :
    ColorMapInv (X ++
      (match (A2.takeWhile (fun (p : Nat × Color) => p.2 == Color.recved)).getLast? with
        | none => [(e, Color.recved)]
        | some lastE => [lastE]) ++
      A2.dropWhile (fun (p : Nat × Color) => p.2 == Color.recved)) := by
  cases hr : (A2.takeWhile (fun (p : Nat × Color) => p.2 == Color.recved)).getLast? with
  | none =>
    have hrn : A2.takeWhile (fun (p : Nat × Color) => p.2 == Color.recved) = [] :=
      List.getLast?_eq_none_iff.mp hr
    have hdw := dropWhile_of_takeWhile_nil hrn
    rw [hdw]
    dsimp only
    constructor
    · rw [List.chain'_append, List.chain'_append]
      refine ⟨⟨hXsort, List.chain'_singleton _, ?_⟩, hA2sort, ?_⟩
      · intro x hx y hy
        rw [Option.mem_def] at hx hy
        simp only [List.head?_cons, Option.some.injEq] at hy
        rw [← hy]
        exact hXall x (mem_of_getLastOpt hx)
      · intro x hx y hy
        rw [Option.mem_def] at hx hy
        rw [List.getLast?_concat] at hx
        injection hx with hx
        rw [← hx]
        exact hA2all y (mem_of_headOpt hy)
    · rw [List.chain'_append, List.chain'_append]
      refine ⟨⟨hXalt, List.chain'_singleton _, ?_⟩, hA2alt, ?_⟩
      · intro x hx y hy
        rw [Option.mem_def] at hx hy
        simp only [List.head?_cons, Option.some.injEq] at hy
        rw [← hy]
        exact hXlast x hx
      · intro x hx y hy
        rw [Option.mem_def] at hx hy
        rw [List.getLast?_concat] at hx
        injection hx with hx
        rw [← hx]
        have := head_of_takeWhile_nil hrn y hy
        simp only [beq_eq_false_iff_ne, ne_eq] at this
        simp only
        intro hcontra
        exact this hcontra.symm
  | some lastE =>
    dsimp only
    have hsplitA2 := List.takeWhile_append_dropWhile
      (p := fun (p : Nat × Color) => p.2 == Color.recved) (l := A2)
    have hlmem : lastE ∈ A2.takeWhile (fun (p : Nat × Color) => p.2 == Color.recved) :=
      mem_of_getLastOpt hr
    have hlA2 : lastE ∈ A2 := by
      have hp := List.takeWhile_prefix (l := A2) (fun (p : Nat × Color) => p.2 == Color.recved)
      exact hp.subset hlmem
    have hlR : lastE.2 = Color.recved := by
      have := List.mem_takeWhile_imp hlmem
      simpa using this
    have hle : e < lastE.1 := hA2all lastE hlA2
    have hrestsuf : A2.dropWhile (fun (p : Nat × Color) => p.2 == Color.recved) <:+ A2 :=
      List.dropWhile_suffix _
    have hrestsort := List.Chain'.suffix hA2sort hrestsuf
    have hrestalt := List.Chain'.suffix hA2alt hrestsuf
    have hjoint : List.Chain' (fun a b => a.1 < b.1)
        (A2.takeWhile (fun (p : Nat × Color) => p.2 == Color.recved) ++
          A2.dropWhile (fun (p : Nat × Color) => p.2 == Color.recved)) := by
      rw [hsplitA2]; exact hA2sort
    have hjunct := (List.chain'_append.mp hjoint).2.2
    constructor
    · rw [List.chain'_append, List.chain'_append]
      refine ⟨⟨hXsort, List.chain'_singleton _, ?_⟩, hrestsort, ?_⟩
      · intro x hx y hy
        rw [Option.mem_def] at hx hy
        simp only [List.head?_cons, Option.some.injEq] at hy
        rw [← hy]
        have := hXall x (mem_of_getLastOpt hx)
        omega
      · intro x hx y hy
        rw [Option.mem_def] at hx hy
        rw [List.getLast?_concat] at hx
        injection hx with hx
        rw [← hx]
        exact hjunct lastE (by rw [Option.mem_def]; exact hr) y (by rw [Option.mem_def]; exact hy)
    · rw [List.chain'_append, List.chain'_append]
      refine ⟨⟨hXalt, List.chain'_singleton _, ?_⟩, hrestalt, ?_⟩
      · intro x hx y hy
        rw [Option.mem_def] at hx hy
        simp only [List.head?_cons, Option.some.injEq] at hy
        rw [← hy]
        have := hXlast x hx
        rw [← hlR] at this
        exact this
      · intro x hx y hy
        rw [Option.mem_def] at hx hy
        rw [List.getLast?_concat] at hx
        injection hx with hx
        rw [← hx]
        have := head_dropWhile_false (fun (p : Nat × Color) => p.2 == Color.recved) A2 y hy
        simp only [beq_eq_false_iff_ne, ne_eq] at this
        rw [hlR]
        intro hcontra
        exact this hcontra.symm

theorem filter_gt_suffix (e : Nat) (A : List (Nat × Color))
    (hsorted : List.Chain' (fun a b => a.1 < b.1) A) (hall : ∀ p ∈ A, e ≤ p.1) :
    A.filter (fun (p : Nat × Color) => decide (e < p.1)) <:+ A := by
  cases A with
  | nil => exact ⟨[], rfl⟩
  | cons ah t =>
    have hgt := chain_lt_head hsorted
    by_cases he : e < ah.1
    · have hself : (ah :: t).filter (fun (p : Nat × Color) => decide (e < p.1)) = ah :: t := by
        rw [List.filter_eq_self]
        intro x hx
        rcases List.mem_cons.mp hx with rfl | hx'
        · simpa using he
        · have := hgt x hx'
          simp only [decide_eq_true_eq]
          omega
      rw [hself]
    · have hae : e ≤ ah.1 := hall ah (List.mem_cons_self ah t)
      have hdrop : (ah :: t).filter (fun (p : Nat × Color) => decide (e < p.1)) = t := by
        rw [List.filter_cons]
        rw [if_neg (by simpa using he)]
        rw [List.filter_eq_self]
        intro x hx
        have := hgt x hx
        simp only [decide_eq_true_eq]
        omega
      rw [hdrop]
      exact ⟨[ah], rfl⟩

theorem ackPreservesInv (b : SendBuf) (s e : Nat) (b2 : SendBuf)
    (hinv : ColorMapInv b.state) (hse : s < e) (h : b.ack s e = some b2) :
    ColorMapInv b2.state := by
  obtain ⟨hsort, halt⟩ := hinv
  unfold SendBuf.ack at h
  dsimp only at h
  split at h
  · cases h
  rename_i hnp
  split at h
  · cases h
  rename_i c hc
  injection h with h
  rw [← h]
  dsimp only
  have hbef : (b.state.filter
        (fun (p : Nat × Color) => !(decide (s ≤ p.1) && decide (p.1 < e)))).filter
      (fun (p : Nat × Color) => decide (p.1 < s)) =
      b.state.filter (fun (p : Nat × Color) => decide (p.1 < s)) := by
    rw [List.filter_filter]
    apply List.filter_congr
    intro a _
    by_cases h1 : a.1 < s <;> by_cases h2 : s ≤ a.1 <;> simp [h1, h2] <;> omega
  have haft : (b.state.filter
        (fun (p : Nat × Color) => !(decide (s ≤ p.1) && decide (p.1 < e)))).filter
      (fun (p : Nat × Color) => decide (s < p.1)) =
      b.state.filter (fun (p : Nat × Color) => decide (e ≤ p.1)) := by
    rw [List.filter_filter]
    apply List.filter_congr
    intro a _
    by_cases h1 : s < a.1 <;> by_cases h2 : a.1 < e <;> by_cases h3 : s ≤ a.1 <;>
      simp [h1, h2, h3] <;> omega
  have hlb : (b.state.filter
        (fun (p : Nat × Color) => !(decide (s ≤ p.1) && decide (p.1 < e)))).filter
      (fun (p : Nat × Color) => decide (e ≤ p.1)) =
      b.state.filter (fun (p : Nat × Color) => decide (e ≤ p.1)) := by
    rw [List.filter_filter]
    apply List.filter_congr
    intro a _
    by_cases h1 : e ≤ a.1 <;> by_cases h2 : s ≤ a.1 <;> simp [h1, h2] <;> omega
  rw [hbef, haft]
  rw [hlb] at hc
  have hsplit := sorted_three_split s e hse b.state hsort
  set B := b.state.filter (fun (p : Nat × Color) => decide (p.1 < s)) with hBdef
  set M := b.state.filter (fun (p : Nat × Color) => decide (s ≤ p.1) && decide (p.1 < e))
    with hMdef
  set A := b.state.filter (fun (p : Nat × Color) => decide (e ≤ p.1)) with hAdef
  clear_value B M A
  have hB_all : ∀ p ∈ B, p.1 < s := by
    intro p hp
    rw [hBdef] at hp
    have := List.of_mem_filter hp
    simpa using this
  have hA_all : ∀ p ∈ A, e ≤ p.1 := by
    intro p hp
    rw [hAdef] at hp
    have := List.of_mem_filter hp
    simpa using this
  have hBpre : B <+: b.state := ⟨M ++ A, by rw [hsplit, List.append_assoc]⟩
  have hAsuf : A <:+ b.state := ⟨B ++ M, hsplit.symm⟩
  have hsortB := List.Chain'.prefix hsort hBpre
  have haltB := List.Chain'.prefix halt hBpre
  have hsortA := List.Chain'.suffix hsort hAsuf
  have haltA := List.Chain'.suffix halt hAsuf
  have halt2 : List.Chain' (fun a b => a.2 ≠ b.2) (B ++ (M ++ A)) := by
    have h' := halt
    rw [hsplit] at h'
    rwa [List.append_assoc] at h'
  have hj := (List.chain'_append.mp halt2).2.2
  have hjc : ∀ x, B.getLast? = some x → x.2 ≠ c := by
    intro x hx
    cases hMh : M.head? with
    | some mh =>
      rw [hMh] at hc
      simp only [Option.map_some'] at hc
      injection hc with hc
      cases M with
      | nil => cases hMh
      | cons m0 mt =>
        simp only [List.head?_cons, Option.some.injEq] at hMh
        have hhd : ((m0 :: mt) ++ A).head? = some m0 := by
          rw [List.cons_append, List.head?_cons]
        have := hj x (by rw [Option.mem_def]; exact hx) m0 (by rw [Option.mem_def]; exact hhd)
        rw [← hc, ← hMh]
        exact this
    | none =>
      rw [hMh] at hc
      simp only [Option.map_none'] at hc
      have hMnil : M = [] := List.head?_eq_none_iff.mp hMh
      cases hAh : A.head? with
      | none =>
        rw [hAh] at hc
        simp only [Option.map_none'] at hc
        cases hc
      | some ah =>
        rw [hAh] at hc
        simp only [Option.map_some'] at hc
        injection hc with hc
        have hhd : (M ++ A).head? = some ah := by
          rw [hMnil, List.nil_append]
          exact hAh
        have := hj x (by rw [Option.mem_def]; exact hx) ah (by rw [Option.mem_def]; exact hhd)
        rw [← hc]
        exact this
  have hA2suf := filter_gt_suffix e A hsortA hA_all
  have hA2sort := List.Chain'.suffix hsortA hA2suf
  have hA2alt := List.Chain'.suffix haltA hA2suf
  have hA2all : ∀ p ∈ A.filter (fun (p : Nat × Color) => decide (e < p.1)), e < p.1 := by
    intro p hp
    have := List.of_mem_filter hp
    simpa using this
  by_cases hcR : (c == Color.recved) = true
  · rw [if_pos hcR]
    have hXpre : dropTrailingRecvd B <+: B := dropTrailingRecvd_isPre B
    have hx1 : (dropTrailingRecvd B).filter (fun (p : Nat × Color) => decide (p.1 < e)) =
        dropTrailingRecvd B := by
      rw [List.filter_eq_self]
      intro x hx
      have := hB_all x (hXpre.subset hx)
      simp only [decide_eq_true_eq]
      omega
    have hx2 : A.filter (fun (p : Nat × Color) => decide (p.1 < e)) = [] := by
      rw [List.filter_eq_nil_iff]
      intro x hx
      have := hA_all x hx
      simp only [decide_eq_true_eq]
      omega
    have hx3 : (dropTrailingRecvd B).filter (fun (p : Nat × Color) => decide (e < p.1)) = [] := by
      rw [List.filter_eq_nil_iff]
      intro x hx
      have := hB_all x (hXpre.subset hx)
      simp only [decide_eq_true_eq]
      omega
    have h1 : (dropTrailingRecvd B ++ A).filter (fun (p : Nat × Color) => decide (p.1 < e)) =
        dropTrailingRecvd B := by
      rw [List.filter_append, hx1, hx2, List.append_nil]
    have h2 : (dropTrailingRecvd B ++ A).filter (fun (p : Nat × Color) => decide (e < p.1)) =
        A.filter (fun (p : Nat × Color) => decide (e < p.1)) := by
      rw [List.filter_append, hx3, List.nil_append]
    rw [h1, h2]
    exact ackAssembleInv (dropTrailingRecvd B) (A.filter (fun (p : Nat × Color) => decide (e < p.1))) e
      ( List.Chain'.prefix hsortB hXpre)
      ( List.Chain'.prefix haltB hXpre)
      (by intro p hp; have := hB_all p (hXpre.subset hp); omega)
      (by
        intro x hx
        have := dropTrailingRecvd_last B x hx
        simp only [beq_eq_false_iff_ne, ne_eq] at this
        exact this)
      hA2sort hA2alt hA2all
  · rw [if_neg hcR]
    have hcne : c ≠ Color.recved := by
      intro hcontra
      exact hcR (by rw [hcontra]; rfl)
    have hXsort : List.Chain' (fun a b => a.1 < b.1) (B ++ [(s, c)]) := by
      rw [List.chain'_append]
      refine ⟨hsortB, List.chain'_singleton _, ?_⟩
      intro x hx y hy
      rw [Option.mem_def] at hx hy
      simp only [List.head?_cons, Option.some.injEq] at hy
      rw [← hy]
      exact hB_all x (mem_of_getLastOpt hx)
    have hXalt : List.Chain' (fun a b => a.2 ≠ b.2) (B ++ [(s, c)]) := by
      rw [List.chain'_append]
      refine ⟨haltB, List.chain'_singleton _, ?_⟩
      intro x hx y hy
      rw [Option.mem_def] at hx hy
      simp only [List.head?_cons, Option.some.injEq] at hy
      rw [← hy]
      exact hjc x hx
    have hy1 : B.filter (fun (p : Nat × Color) => decide (p.1 < e)) = B := by
      rw [List.filter_eq_self]
      intro x hx
      have := hB_all x hx
      simp only [decide_eq_true_eq]
      omega
    have hy2 : ([(s, c)] : List (Nat × Color)).filter
        (fun (p : Nat × Color) => decide (p.1 < e)) = [(s, c)] := by
      rw [List.filter_cons]
      rw [if_pos (by simpa using hse)]
      rfl
    have hy3 : A.filter (fun (p : Nat × Color) => decide (p.1 < e)) = [] := by
      rw [List.filter_eq_nil_iff]
      intro x hx
      have := hA_all x hx
      simp only [decide_eq_true_eq]
      omega
    have hy4 : B.filter (fun (p : Nat × Color) => decide (e < p.1)) = [] := by
      rw [List.filter_eq_nil_iff]
      intro x hx
      have := hB_all x hx
      simp only [decide_eq_true_eq]
      omega
    have hy5 : ([(s, c)] : List (Nat × Color)).filter
        (fun (p : Nat × Color) => decide (e < p.1)) = [] := by
      rw [List.filter_cons]
      rw [if_neg (by simp only [decide_eq_true_eq]; omega)]
      rfl
    have h1 : (B ++ [(s, c)] ++ A).filter (fun (p : Nat × Color) => decide (p.1 < e)) =
        B ++ [(s, c)] := by
      rw [List.filter_append, List.filter_append, hy1, hy2, hy3, List.append_nil]
    have h2 : (B ++ [(s, c)] ++ A).filter (fun (p : Nat × Color) => decide (e < p.1)) =
        A.filter (fun (p : Nat × Color) => decide (e < p.1)) := by
      rw [List.filter_append, List.filter_append, hy4, hy5, List.nil_append, List.nil_append]
    rw [h1, h2]
    exact ackAssembleInv (B ++ [(s, c)]) (A.filter (fun (p : Nat × Color) => decide (e < p.1))) e
      hXsort hXalt
      (by
        intro p hp
        rcases List.mem_append.mp hp with hp' | hp'
        · have := hB_all p hp'
          omega
        · rcases List.mem_singleton.mp hp' with rfl
          exact hse)
      (by
        intro x hx
        rw [List.getLast?_concat] at hx
        injection hx with hx
        rw [← hx]
        exact hcne)
      hA2sort hA2alt hA2all

theorem runSbOpsPreservesInv (ops : List SbOp) (b b2 : SendBuf)
    (hinv : ColorMapInv b.state) (hok : ∀ op ∈ ops, SbOp.ok op)
    (h : runSbOps b ops = some b2) : ColorMapInv b2.state := by
  induction ops generalizing b with
  | nil =>
    unfold runSbOps at h
    injection h with h
    rw [← h]
    exact hinv
  | cons op rest ih =>
    unfold runSbOps at h
    cases hop : runSbOp b op with
    | none => rw [hop] at h; cases h
    | some b' =>
      rw [hop] at h
      have hinv' : ColorMapInv b'.state := by
        cases op with
        | write bytes =>
          simp only [runSbOp] at hop
          cases hw : b.write bytes with
          | none => rw [hw] at hop; cases hop
          | some p =>
            rw [hw] at hop
            simp only [Option.map_some'] at hop
            injection hop with hop
            rw [← hop]
            exact writePreservesInv b bytes p.1 p.2 hinv (by rw [hw])
        | ack s e =>
          simp only [runSbOp] at hop
          exact ackPreservesInv b s e b' hinv (hok _ (List.mem_cons_self _ _)) hop
      exact ih b' hinv' (fun op' hop' => hok op' (List.mem_cons_of_mem _ hop')) h

/-- C9: for every sequence of `SendBuf::write` and `SendBuf::ack`
operations (writes non-empty, acks covering a nonempty range) that runs
without panicking, the offset-to-color map of the resulting buffer has
strictly increasing keys and no two consecutive entries of the same
color: each maximal same-colored run is a single entry. -/
theorem sendBufColorInv_spec (n : Nat) (ops : List SbOp) (b2 : SendBuf)
    (hok : ∀ op ∈ ops, SbOp.ok op)
    (h : runSbOps (SendBuf.withCapacity n) ops = some b2) :
    ColorMapInv b2.state :=
  runSbOpsPreservesInv ops (SendBuf.withCapacity n) b2 ColorMapInv.nil hok h

theorem sendBufColorInv_witness :
    ColorMapInv [(0, Color.pending), (2, Color.recved), (3, Color.pending)] :=
  sendBufColorInv_spec 10 [SbOp.write [7, 8, 9], SbOp.ack 0 2]
    { offset := 0, maxDataLen := 10, data := [7, 8, 9],
      state := [(0, Color.pending), (2, Color.recved), (3, Color.pending)] }
    (by
      intro op hop
      simp only [List.mem_cons, List.not_mem_nil, or_false] at hop
      rcases hop with rfl | rfl
      · exact (by decide : ([7, 8, 9] : List Nat) ≠ [])
      · exact (by decide : (0 : Nat) < 2))
    (by decide)

theorem frameItemsAux_nil (fuel : Nat) : frameItemsAux fuel [] = [] := by
  cases fuel with
  | zero => rfl
  | succ f => simp [frameItemsAux]

theorem encodesFrame_ping : EncodesFrame [0x01] (Frame.info (InfoFrame.ping {})) := by
  refine ⟨by decide, ?_⟩
  intro rest
  show beFrame (0x01 :: rest) = Except.ok (1, Frame.info (InfoFrame.ping {}))
  simp [beFrame, beVarint, beBytesVal, frameTypeFromVarint, completeFrame,
    Nat.add_sub_cancel_left]

theorem encodesFrame_maxData :
    EncodesFrame [0x10, 0x25] (Frame.info (InfoFrame.maxData { maxData := 0x25 })) := by
  refine ⟨by decide, ?_⟩
  intro rest
  show beFrame (0x10 :: 0x25 :: rest) =
    Except.ok (2, Frame.info (InfoFrame.maxData { maxData := 0x25 }))
  simp [beFrame, beVarint, beBytesVal, frameTypeFromVarint, completeFrame, beMaxDataFrame,
    PRes.andThen]
  omega

theorem frameItemsAux_flatten (t : List Nat) (R : List (Except FrameError Frame))
    (htail : ∀ f', t.length + 1 ≤ f' → frameItemsAux f' t = R) :
    ∀ ps : List (List Nat × Frame), (∀ p ∈ ps, EncodesFrame p.1 p.2) →
      ∀ fuel, (ps.map Prod.fst).flatten.length + t.length + 1 ≤ fuel →
        frameItemsAux fuel ((ps.map Prod.fst).flatten ++ t) =
          ps.map (fun p => Except.ok p.2) ++ R := by
  intro ps
  induction ps with
  | nil =>
    intro _ fuel hfuel
    simp only [List.map_nil, List.flatten_nil, List.nil_append, List.length_nil] at *
    exact htail fuel (by omega)
  | cons p ps' ih =>
    intro hps fuel hfuel
    obtain ⟨hne, hparse⟩ := hps p (List.mem_cons_self _ _)
    have hps' : ∀ q ∈ ps', EncodesFrame q.1 q.2 := fun q hq => hps q (List.mem_cons_of_mem _ hq)
    have hlen : 1 ≤ p.1.length := by
      cases hp1 : p.1 with
      | nil => exact absurd hp1 hne
      | cons a l => simp
    simp only [List.map_cons, List.flatten_cons, List.length_append] at hfuel ⊢
    cases fuel with
    | zero => omega
    | succ fuel' =>
      rw [List.append_assoc]
      have hXne : p.1 ++ ((ps'.map Prod.fst).flatten ++ t) ≠ [] := by
        intro hcontra
        rcases List.append_eq_nil.mp hcontra with ⟨h1, _⟩
        exact hne h1
      rw [frameItemsAux]
      rw [if_neg hXne]
      rw [hparse ((ps'.map Prod.fst).flatten ++ t)]
      dsimp only
      rw [List.drop_left]
      rw [ih hps' fuel' (by omega)]
      rfl

/-- C7 (amended): iterating a `FrameReader` over a concatenation of
self-delimiting encoded frames followed by a tail yields those frames in
order, then: nothing more when the tail is empty (the iterator stops
exactly at the buffer end); the tail's frame when the tail encodes a
valid final frame — which a truncation of a STREAM frame without the LEN
bit is, so a truncated last frame does NOT always yield an error; and
exactly one error when the tail fails to parse, the reader clearing its
buffer at that error so the iteration terminates. -/
theorem frameReader_amended (ps : List (List Nat × Frame)) (t : List Nat)
    (hps : ∀ p ∈ ps, EncodesFrame p.1 p.2) :
    (t = [] → frameItems ((ps.map Prod.fst).flatten ++ t) =
        ps.map (fun p => Except.ok p.2))
    ∧ (∀ g, EncodesFinalFrame t g →
        frameItems ((ps.map Prod.fst).flatten ++ t) =
          ps.map (fun p => Except.ok p.2) ++ [Except.ok g])
    ∧ (∀ e, t ≠ [] → beFrame t = Except.error e →
        frameItems ((ps.map Prod.fst).flatten ++ t) =
          ps.map (fun p => Except.ok p.2) ++ [Except.error e] ∧
        frameReaderNext t = (some (Except.error e), [])) := by
  refine ⟨?_, ?_, ?_⟩
  · intro ht
    subst ht
    unfold frameItems
    rw [frameItemsAux_flatten [] [] (fun f' _ => frameItemsAux_nil f') ps hps _
      (by simp [List.length_append])]
    rw [List.append_nil]
  · intro g hg
    obtain ⟨htne, hparse⟩ := hg
    unfold frameItems
    exact frameItemsAux_flatten t [Except.ok g]
      (fun f' hf' => by
        cases f' with
        | zero => omega
        | succ f'' =>
          rw [frameItemsAux]
          rw [if_neg htne, hparse]
          dsimp only
          rw [List.drop_length]
          rw [frameItemsAux_nil])
      ps hps _ (by simp [List.length_append])
  · intro e htne herr
    constructor
    · unfold frameItems
      exact frameItemsAux_flatten t [Except.error e]
        (fun f' hf' => by
          cases f' with
          | zero => omega
          | succ f'' =>
            rw [frameItemsAux]
            rw [if_neg htne, herr])
        ps hps _ (by simp [List.length_append])
    · unfold frameReaderNext
      rw [if_neg htne, herr]

theorem frameReader_witness :
    frameItems [0x01, 0x10, 0x25, 0x10] =
      [Except.ok (Frame.info (InfoFrame.ping {})),
       Except.ok (Frame.info (InfoFrame.maxData { maxData := 0x25 })),
       Except.error (FrameError.incompleteFrame FrameType.maxData)] ∧
    frameReaderNext [0x10] = (some (Except.error (FrameError.incompleteFrame FrameType.maxData)), []) := by
  have h := frameReader_amended
    [([0x01], Frame.info (InfoFrame.ping {})),
     ([0x10, 0x25], Frame.info (InfoFrame.maxData { maxData := 0x25 }))]
    [0x10]
    (by
      intro p hp
      simp only [List.mem_cons, List.not_mem_nil, or_false] at hp
      rcases hp with rfl | rfl
      · exact encodesFrame_ping
      · exact encodesFrame_maxData)
  obtain ⟨h1, h2⟩ := h.2.2 (FrameError.incompleteFrame FrameType.maxData) (by decide) (by rfl)
  constructor
  · simpa using h1
  · exact h2

/-- C7 counterexample: `[0x08, 0x00, 0xAA, 0xBB]` encodes a final STREAM
frame with the LEN bit clear; truncating its last byte leaves
`[0x08, 0x00, 0xAA]`, which the reader parses as one valid, shorter
STREAM frame and no error — not the Incomplete-style error the claim
promises for every truncated last frame. -/
theorem frameReader_counterexample :
    EncodesFinalFrame streamNoLenBytes streamNoLenFrame ∧
    streamNoLenBytes.take 3 = [0x08, 0x00, 0xAA] ∧
    frameItems [0x08, 0x00, 0xAA] = [Except.ok streamNoLenShorter] := by
  refine ⟨⟨by decide, by rfl⟩, by rfl, by rfl⟩

end Quix
